import Mathlib

set_option maxRecDepth 8000

/-!
# Verification of the TOTP generator (`totp_2fa_generator.py`)

This file embeds the two functions of the repository, `generate_totp` and
`generate_totp_url`, as executable Lean definitions and proves the spec's
claims about them.

Conventions of the embedding:
* A Python `bytes` value is a `List Nat` whose elements are below 256.
* Python `str` secrets are pre-encoded: the functions take the byte list
  that `secret.encode()` would produce (for the ASCII inputs appearing in
  the tests, `asciiBytes` performs the encoding).
* The wall clock value `time.time()` is passed explicitly as a rational
  `now : ℚ` (the spec calls the time source injectable); the Python float
  division `time.time() / period` is modelled as exact rational division
  followed by `Int.floor`, matching `math.floor`.
* Machine integers are `Nat` with explicit reduction `% 2 ^ w`.
* Failures are modelled with `Except PyError`; the constructors name the
  Python exceptions the code can raise (`ZeroDivisionError` from division
  by a zero period, `OverflowError` from `int.to_bytes` on a negative or
  too-large counter, `ValueError` from `hmac.digest` on an unknown
  algorithm name).  `PyError.invalidParameter` renders the spec's
  `InvalidParameter` condition (§7 of the spec); the code never produces it.
* The Python stdlib primitives used by the source (`hmac.digest` with
  SHA-1/SHA-256/SHA-512, `base64.b32encode`, `base64.b32decode`, `str`,
  `str.rjust`, `str.rstrip`) are modelled from their specifications
  (RFC 2104, RFC 3174, RFC 6234, RFC 4648); known test vectors below
  check the models.  The algorithm-name dispatch of `hmac.digest` is a
  partial model of the `hashlib` registry — see the note on `hmacDigest`.
-/

namespace Totp

/-- Truncate to an unsigned 32-bit value. -/
def u32 (x : Nat) : Nat := x % 4294967296

/-- Truncate to an unsigned 64-bit value. -/
def u64 (x : Nat) : Nat := x % 18446744073709551616

/-- Rotate a 32-bit value left by `n` bits (for `x < 2 ^ 32`). -/
def rotl32 (n x : Nat) : Nat := u32 (x <<< n) ||| (x >>> (32 - n))

/-- Rotate a 32-bit value right by `n` bits (for `x < 2 ^ 32`). -/
def rotr32 (n x : Nat) : Nat := (x >>> n) ||| u32 (x <<< (32 - n))

/-- Rotate a 64-bit value right by `n` bits (for `x < 2 ^ 64`). -/
def rotr64 (n x : Nat) : Nat := (x >>> n) ||| u64 (x <<< (64 - n))

/-- Big-endian byte serialization of `x` on exactly `n` bytes
(`int.to_bytes(n, 'big')` after its range check has passed). -/
def toBytesBE : Nat → Nat → List Nat
  | 0, _ => []
  | n + 1, x => toBytesBE n (x / 256) ++ [x % 256]

/-- The value a big-endian byte list denotes. -/
def bytesToNatBE (bs : List Nat) : Nat := bs.foldl (fun a b => 256 * a + b) 0

theorem toBytesBE_length (n x : Nat) : (toBytesBE n x).length = n := by
  induction n generalizing x with
  | zero => rfl
  | succ n ih => simp [toBytesBE, ih]

theorem toBytesBE_lt_256 (n x : Nat) : ∀ b ∈ toBytesBE n x, b < 256 := by
  induction n generalizing x with
  | zero => simp [toBytesBE]
  | succ n ih =>
    intro b hb
    simp only [toBytesBE, List.mem_append, List.mem_singleton] at hb
    rcases hb with hb | hb
    · exact ih _ b hb
    · omega

theorem bytesToNatBE_append_singleton (bs : List Nat) (b : Nat) :
    bytesToNatBE (bs ++ [b]) = 256 * bytesToNatBE bs + b := by
  simp [bytesToNatBE, List.foldl_append]

theorem bytesToNatBE_toBytesBE (n x : Nat) (h : x < 256 ^ n) :
    bytesToNatBE (toBytesBE n x) = x := by
  induction n generalizing x with
  | zero =>
    simp only [pow_zero, Nat.lt_one_iff] at h
    simp [toBytesBE, bytesToNatBE, h]
  | succ n ih =>
    have hdiv : x / 256 < 256 ^ n := by
      rw [Nat.div_lt_iff_lt_mul (by norm_num)]
      calc x < 256 ^ (n + 1) := h
        _ = 256 ^ n * 256 := by ring
    rw [toBytesBE, bytesToNatBE_append_singleton, ih _ hdiv]
    omega

/-- The 32-bit big-endian words of a block, `nw` of them. -/
def wordsOfBlock32 (block : List Nat) (nw : Nat) : List Nat :=
  (List.range nw).map (fun i =>
    block.getD (4 * i) 0 * 16777216 + block.getD (4 * i + 1) 0 * 65536 +
    block.getD (4 * i + 2) 0 * 256 + block.getD (4 * i + 3) 0)

/-- The 64-bit big-endian words of a block, `nw` of them. -/
def wordsOfBlock64 (block : List Nat) (nw : Nat) : List Nat :=
  (List.range nw).map (fun i =>
    block.getD (8 * i) 0 * 72057594037927936 + block.getD (8 * i + 1) 0 * 281474976710656 +
    block.getD (8 * i + 2) 0 * 1099511627776 + block.getD (8 * i + 3) 0 * 4294967296 +
    block.getD (8 * i + 4) 0 * 16777216 + block.getD (8 * i + 5) 0 * 65536 +
    block.getD (8 * i + 6) 0 * 256 + block.getD (8 * i + 7) 0)

/-! ## SHA-1 (RFC 3174), the model of `hashlib.sha1` -/

/-- SHA-1 message-schedule extension: append `k` further words. -/
def sha1Extend : List Nat → Nat → List Nat
  | ws, 0 => ws
  | ws, k + 1 =>
    let t := ws.length
    sha1Extend
      (ws ++ [rotl32 1 (ws.getD (t - 3) 0 ^^^ ws.getD (t - 8) 0 ^^^
                        ws.getD (t - 14) 0 ^^^ ws.getD (t - 16) 0)]) k

/-- SHA-1 round function. -/
def sha1F (t b c d : Nat) : Nat :=
  if t < 20 then (b &&& c) ||| ((b ^^^ 4294967295) &&& d)
  else if t < 40 then b ^^^ c ^^^ d
  else if t < 60 then (b &&& c) ||| (b &&& d) ||| (c &&& d)
  else b ^^^ c ^^^ d

/-- SHA-1 round constants. -/
def sha1K (t : Nat) : Nat :=
  if t < 20 then 1518500249
  else if t < 40 then 1859775393
  else if t < 60 then 2400959708
  else 3395469782

/-- One SHA-1 block compression. -/
def sha1Compress (s : Nat × Nat × Nat × Nat × Nat) (block : List Nat) :
    Nat × Nat × Nat × Nat × Nat :=
  let w := sha1Extend (wordsOfBlock32 block 16) 64
  let r := (List.range 80).foldl
    (fun (st : Nat × Nat × Nat × Nat × Nat) t =>
      match st with
      | (a, b, c, d, e) =>
        (u32 (rotl32 5 a + sha1F t b c d + e + sha1K t + w.getD t 0),
         a, rotl32 30 b, c, d))
    s
  match s, r with
  | (h0, h1, h2, h3, h4), (a, b, c, d, e) =>
    (u32 (h0 + a), u32 (h1 + b), u32 (h2 + c), u32 (h3 + d), u32 (h4 + e))

/-- Iterate a 5-word compression over 64-byte chunks, `k` of them. -/
def sha1Blocks : Nat → (Nat × Nat × Nat × Nat × Nat) → List Nat →
    Nat × Nat × Nat × Nat × Nat
  | 0, s, _ => s
  | k + 1, s, data => sha1Blocks k (sha1Compress s (data.take 64)) (data.drop 64)

/-- Serialize a 5-word state as 20 big-endian bytes. -/
def outWords160 (s : Nat × Nat × Nat × Nat × Nat) : List Nat :=
  toBytesBE 4 s.1 ++ toBytesBE 4 s.2.1 ++ toBytesBE 4 s.2.2.1 ++
  toBytesBE 4 s.2.2.2.1 ++ toBytesBE 4 s.2.2.2.2

/-- Merkle–Damgård padding for 64-byte-block hashes (8-byte length field). -/
def padMsg64 (msg : List Nat) : List Nat :=
  msg ++ 128 :: List.replicate ((119 - msg.length % 64) % 64) 0 ++
    toBytesBE 8 (8 * msg.length)

/-- SHA-1 of a byte list. -/
def sha1 (msg : List Nat) : List Nat :=
  let padded := padMsg64 msg
  outWords160 (sha1Blocks (padded.length / 64)
    (1732584193, 4023233417, 2562383102, 271733878, 3285377520) padded)

theorem outWords160_length (s : Nat × Nat × Nat × Nat × Nat) :
    (outWords160 s).length = 20 := by
  simp [outWords160, toBytesBE_length]

theorem sha1_length (msg : List Nat) : (sha1 msg).length = 20 :=
  outWords160_length _

theorem outWords160_lt_256 (s : Nat × Nat × Nat × Nat × Nat) :
    ∀ b ∈ outWords160 s, b < 256 := by
  intro b hb
  simp only [outWords160, List.mem_append] at hb
  rcases hb with ((((h | h) | h) | h) | h) <;> exact toBytesBE_lt_256 _ _ b h

theorem sha1_lt_256 (msg : List Nat) : ∀ b ∈ sha1 msg, b < 256 :=
  outWords160_lt_256 _

/-- RFC 3174 test vector. -/
theorem sha1_abc :
    sha1 [97, 98, 99] =
      [169, 153, 62, 54, 71, 6, 129, 106, 186, 62, 37, 113, 120, 80, 194,
       108, 156, 208, 216, 157] := by decide

/-! ## SHA-256 (RFC 6234), the model of `hashlib.sha256` -/

/-- State of an 8-word hash. -/
abbrev St8 := Nat × Nat × Nat × Nat × Nat × Nat × Nat × Nat

/-- SHA-256 round constants. -/
def sha256K : List Nat :=
  [1116352408, 1899447441, 3049323471, 3921009573,
   961987163, 1508970993, 2453635748, 2870763221,
   3624381080, 310598401, 607225278, 1426881987,
   1925078388, 2162078206, 2614888103, 3248222580,
   3835390401, 4022224774, 264347078, 604807628,
   770255983, 1249150122, 1555081692, 1996064986,
   2554220882, 2821834349, 2952996808, 3210313671,
   3336571891, 3584528711, 113926993, 338241895,
   666307205, 773529912, 1294757372, 1396182291,
   1695183700, 1986661051, 2177026350, 2456956037,
   2730485921, 2820302411, 3259730800, 3345764771,
   3516065817, 3600352804, 4094571909, 275423344,
   430227734, 506948616, 659060556, 883997877,
   958139571, 1322822218, 1537002063, 1747873779,
   1955562222, 2024104815, 2227730452, 2361852424,
   2428436474, 2756734187, 3204031479, 3329325298]

/-- SHA-256 schedule extension: append `k` further words. -/
def sha256Extend : List Nat → Nat → List Nat
  | ws, 0 => ws
  | ws, k + 1 =>
    let t := ws.length
    let w15 := ws.getD (t - 15) 0
    let w2 := ws.getD (t - 2) 0
    let s0 := rotr32 7 w15 ^^^ rotr32 18 w15 ^^^ (w15 >>> 3)
    let s1 := rotr32 17 w2 ^^^ rotr32 19 w2 ^^^ (w2 >>> 10)
    sha256Extend (ws ++ [u32 (ws.getD (t - 16) 0 + s0 + ws.getD (t - 7) 0 + s1)]) k

/-- One SHA-256 block compression. -/
def sha256Compress (s : St8) (block : List Nat) : St8 :=
  let w := sha256Extend (wordsOfBlock32 block 16) 48
  let r := (List.range 64).foldl
    (fun (st : St8) t =>
      match st with
      | (a, b, c, d, e, f, g, h) =>
        let S1 := rotr32 6 e ^^^ rotr32 11 e ^^^ rotr32 25 e
        let ch := (e &&& f) ^^^ ((e ^^^ 4294967295) &&& g)
        let temp1 := h + S1 + ch + sha256K.getD t 0 + w.getD t 0
        let S0 := rotr32 2 a ^^^ rotr32 13 a ^^^ rotr32 22 a
        let maj := (a &&& b) ^^^ (a &&& c) ^^^ (b &&& c)
        (u32 (temp1 + S0 + maj), a, b, c, u32 (d + temp1), e, f, g))
    s
  match s, r with
  | (h0, h1, h2, h3, h4, h5, h6, h7), (a, b, c, d, e, f, g, h) =>
    (u32 (h0 + a), u32 (h1 + b), u32 (h2 + c), u32 (h3 + d),
     u32 (h4 + e), u32 (h5 + f), u32 (h6 + g), u32 (h7 + h))

/-- Iterate an 8-word compression over 64-byte chunks, `k` of them. -/
def sha256Blocks : Nat → St8 → List Nat → St8
  | 0, s, _ => s
  | k + 1, s, data => sha256Blocks k (sha256Compress s (data.take 64)) (data.drop 64)

/-- Serialize an 8-word 32-bit state as 32 big-endian bytes. -/
def outWords256 (s : St8) : List Nat :=
  toBytesBE 4 s.1 ++ toBytesBE 4 s.2.1 ++ toBytesBE 4 s.2.2.1 ++
  toBytesBE 4 s.2.2.2.1 ++ toBytesBE 4 s.2.2.2.2.1 ++ toBytesBE 4 s.2.2.2.2.2.1 ++
  toBytesBE 4 s.2.2.2.2.2.2.1 ++ toBytesBE 4 s.2.2.2.2.2.2.2

/-- SHA-256 of a byte list. -/
def sha256 (msg : List Nat) : List Nat :=
  let padded := padMsg64 msg
  outWords256 (sha256Blocks (padded.length / 64)
    (1779033703, 3144134277, 1013904242, 2773480762,
     1359893119, 2600822924, 528734635, 1541459225) padded)

theorem outWords256_length (s : St8) : (outWords256 s).length = 32 := by
  simp [outWords256, toBytesBE_length]

theorem sha256_length (msg : List Nat) : (sha256 msg).length = 32 :=
  outWords256_length _

theorem outWords256_lt_256 (s : St8) : ∀ b ∈ outWords256 s, b < 256 := by
  intro b hb
  simp only [outWords256, List.mem_append] at hb
  rcases hb with (((((((h | h) | h) | h) | h) | h) | h) | h) <;>
    exact toBytesBE_lt_256 _ _ b h

theorem sha256_lt_256 (msg : List Nat) : ∀ b ∈ sha256 msg, b < 256 :=
  outWords256_lt_256 _

/-- RFC 6234 test vector. -/
theorem sha256_abc :
    sha256 [97, 98, 99] =
      [186, 120, 22, 191, 143, 1, 207, 234, 65, 65, 64, 222, 93, 174, 34, 35,
       176, 3, 97, 163, 150, 23, 122, 156, 180, 16, 255, 97, 242, 0, 21, 173] := by
  decide

/-! ## SHA-512 (RFC 6234), the model of `hashlib.sha512` -/

/-- SHA-512 round constants. -/
def sha512K : List Nat :=
  [4794697086780616226, 8158064640168781261, 13096744586834688815,
   16840607885511220156, 4131703408338449720, 6480981068601479193,
   10538285296894168987, 12329834152419229976, 15566598209576043074,
   1334009975649890238, 2608012711638119052, 6128411473006802146,
   8268148722764581231, 9286055187155687089, 11230858885718282805,
   13951009754708518548, 16472876342353939154, 17275323862435702243,
   1135362057144423861, 2597628984639134821, 3308224258029322869,
   5365058923640841347, 6679025012923562964, 8573033837759648693,
   10970295158949994411, 12119686244451234320, 12683024718118986047,
   13788192230050041572, 14330467153632333762, 15395433587784984357,
   489312712824947311, 1452737877330783856, 2861767655752347644,
   3322285676063803686, 5560940570517711597, 5996557281743188959,
   7280758554555802590, 8532644243296465576, 9350256976987008742,
   10552545826968843579, 11727347734174303076, 12113106623233404929,
   14000437183269869457, 14369950271660146224, 15101387698204529176,
   15463397548674623760, 17586052441742319658, 1182934255886127544,
   1847814050463011016, 2177327727835720531, 2830643537854262169,
   3796741975233480872, 4115178125766777443, 5681478168544905931,
   6601373596472566643, 7507060721942968483, 8399075790359081724,
   8693463985226723168, 9568029438360202098, 10144078919501101548,
   10430055236837252648, 11840083180663258601, 13761210420658862357,
   14299343276471374635, 14566680578165727644, 15097957966210449927,
   16922976911328602910, 17689382322260857208, 500013540394364858,
   748580250866718886, 1242879168328830382, 1977374033974150939,
   2944078676154940804, 3659926193048069267, 4368137639120453308,
   4836135668995329356, 5532061633213252278, 6448918945643986474,
   6902733635092675308, 7801388544844847127]

/-- SHA-512 schedule extension: append `k` further words. -/
def sha512Extend : List Nat → Nat → List Nat
  | ws, 0 => ws
  | ws, k + 1 =>
    let t := ws.length
    let w15 := ws.getD (t - 15) 0
    let w2 := ws.getD (t - 2) 0
    let s0 := rotr64 1 w15 ^^^ rotr64 8 w15 ^^^ (w15 >>> 7)
    let s1 := rotr64 19 w2 ^^^ rotr64 61 w2 ^^^ (w2 >>> 6)
    sha512Extend (ws ++ [u64 (ws.getD (t - 16) 0 + s0 + ws.getD (t - 7) 0 + s1)]) k

/-- One SHA-512 block compression. -/
def sha512Compress (s : St8) (block : List Nat) : St8 :=
  let w := sha512Extend (wordsOfBlock64 block 16) 64
  let r := (List.range 80).foldl
    (fun (st : St8) t =>
      match st with
      | (a, b, c, d, e, f, g, h) =>
        let S1 := rotr64 14 e ^^^ rotr64 18 e ^^^ rotr64 41 e
        let ch := (e &&& f) ^^^ ((e ^^^ 18446744073709551615) &&& g)
        let temp1 := h + S1 + ch + sha512K.getD t 0 + w.getD t 0
        let S0 := rotr64 28 a ^^^ rotr64 34 a ^^^ rotr64 39 a
        let maj := (a &&& b) ^^^ (a &&& c) ^^^ (b &&& c)
        (u64 (temp1 + S0 + maj), a, b, c, u64 (d + temp1), e, f, g))
    s
  match s, r with
  | (h0, h1, h2, h3, h4, h5, h6, h7), (a, b, c, d, e, f, g, h) =>
    (u64 (h0 + a), u64 (h1 + b), u64 (h2 + c), u64 (h3 + d),
     u64 (h4 + e), u64 (h5 + f), u64 (h6 + g), u64 (h7 + h))

/-- Iterate an 8-word compression over 128-byte chunks, `k` of them. -/
def sha512Blocks : Nat → St8 → List Nat → St8
  | 0, s, _ => s
  | k + 1, s, data => sha512Blocks k (sha512Compress s (data.take 128)) (data.drop 128)

/-- Serialize an 8-word 64-bit state as 64 big-endian bytes. -/
def outWords512 (s : St8) : List Nat :=
  toBytesBE 8 s.1 ++ toBytesBE 8 s.2.1 ++ toBytesBE 8 s.2.2.1 ++
  toBytesBE 8 s.2.2.2.1 ++ toBytesBE 8 s.2.2.2.2.1 ++ toBytesBE 8 s.2.2.2.2.2.1 ++
  toBytesBE 8 s.2.2.2.2.2.2.1 ++ toBytesBE 8 s.2.2.2.2.2.2.2

/-- Merkle–Damgård padding for 128-byte-block hashes (16-byte length field). -/
def padMsg128 (msg : List Nat) : List Nat :=
  msg ++ 128 :: List.replicate ((239 - msg.length % 128) % 128) 0 ++
    toBytesBE 16 (8 * msg.length)

/-- SHA-512 of a byte list. -/
def sha512 (msg : List Nat) : List Nat :=
  let padded := padMsg128 msg
  outWords512 (sha512Blocks (padded.length / 128)
    (7640891576956012808, 13503953896175478587, 4354685564936845355,
     11912009170470909681, 5840696475078001361, 11170449401992604703,
     2270897969802886507, 6620516959819538809) padded)

theorem outWords512_length (s : St8) : (outWords512 s).length = 64 := by
  simp [outWords512, toBytesBE_length]

theorem sha512_length (msg : List Nat) : (sha512 msg).length = 64 :=
  outWords512_length _

theorem outWords512_lt_256 (s : St8) : ∀ b ∈ outWords512 s, b < 256 := by
  intro b hb
  simp only [outWords512, List.mem_append] at hb
  rcases hb with (((((((h | h) | h) | h) | h) | h) | h) | h) <;>
    exact toBytesBE_lt_256 _ _ b h

theorem sha512_lt_256 (msg : List Nat) : ∀ b ∈ sha512 msg, b < 256 :=
  outWords512_lt_256 _

/-- RFC 6234 test vector. -/
theorem sha512_abc :
    sha512 [97, 98, 99] =
      [221, 175, 53, 161, 147, 97, 122, 186, 204, 65, 115, 73, 174, 32, 65, 49,
       18, 230, 250, 78, 137, 169, 126, 162, 10, 158, 238, 230, 75, 85, 211, 154,
       33, 146, 153, 42, 39, 79, 193, 168, 54, 186, 60, 35, 163, 254, 235, 189,
       69, 77, 68, 35, 100, 60, 232, 14, 42, 154, 201, 79, 165, 76, 164, 159] := by
  decide

/-! ## HMAC (RFC 2104), the model of `hmac.digest` -/

/-- The spec's closed algorithm universe, in the spelling the source's
default uses: `{SHA1, SHA256, SHA512}`.  This is a property of a name, not
a model of the `hashlib` registry — `hashlib` resolves many further
spellings (see `hmacDigest`), so `supportedAlg alg = false` does not mean
the program rejects `alg`. -/
def supportedAlg (alg : String) : Bool :=
  alg = "SHA1" || alg = "SHA256" || alg = "SHA512"

/-- Underlying hash for a supported algorithm name. -/
def hashFn (alg : String) : List Nat → List Nat :=
  if alg = "SHA256" then sha256 else if alg = "SHA512" then sha512 else sha1

/-- Input block size in bytes of a supported algorithm (`hash.block_size`). -/
def blockSizeOf (alg : String) : Nat :=
  if alg = "SHA512" then 128 else 64

/-- Digest size in bytes of a supported algorithm (`hash.digest_size`). -/
def digestSizeOf (alg : String) : Nat :=
  if alg = "SHA256" then 32 else if alg = "SHA512" then 64 else 20

/-- HMAC digest for a supported algorithm (RFC 2104): the value
`hmac.digest(key, msg, alg)` returns when `alg` resolves. -/
def hmacRaw (alg : String) (key msg : List Nat) : List Nat :=
  let H := hashFn alg
  let B := blockSizeOf alg
  let key0 := if B < key.length then H key else key
  let kpad := key0 ++ List.replicate (B - key0.length) 0
  H ((kpad.map (fun b => b ^^^ 92)) ++ H ((kpad.map (fun b => b ^^^ 54)) ++ msg))

theorem hashFn_SHA1 : hashFn "SHA1" = sha1 := by
  rw [hashFn, if_neg (by decide), if_neg (by decide)]

theorem hashFn_SHA256 : hashFn "SHA256" = sha256 := by
  rw [hashFn, if_pos rfl]

theorem hashFn_SHA512 : hashFn "SHA512" = sha512 := by
  rw [hashFn, if_neg (by decide), if_pos rfl]

theorem hmacRaw_length (alg : String) (key msg : List Nat)
    (h : supportedAlg alg = true) : (hmacRaw alg key msg).length = digestSizeOf alg := by
  simp only [supportedAlg, Bool.or_eq_true, decide_eq_true_eq] at h
  rcases h with (h | h) | h <;> subst h
  · rw [hmacRaw, hashFn_SHA1, sha1_length]
    simp [digestSizeOf]
  · rw [hmacRaw, hashFn_SHA256, sha256_length]
    simp [digestSizeOf]
  · rw [hmacRaw, hashFn_SHA512, sha512_length]
    simp [digestSizeOf]

theorem hmacRaw_lt_256 (alg : String) (key msg : List Nat)
    (h : supportedAlg alg = true) : ∀ b ∈ hmacRaw alg key msg, b < 256 := by
  simp only [supportedAlg, Bool.or_eq_true, decide_eq_true_eq] at h
  rcases h with (h | h) | h <;> subst h
  · rw [hmacRaw, hashFn_SHA1]
    exact sha1_lt_256 _
  · rw [hmacRaw, hashFn_SHA256]
    exact sha256_lt_256 _
  · rw [hmacRaw, hashFn_SHA512]
    exact sha512_lt_256 _

theorem digestSizeOf_ge_20 (alg : String) : 20 ≤ digestSizeOf alg := by
  simp only [digestSizeOf]
  split <;> [omega; split <;> omega]

/-! ## Errors and Python-level helpers -/

/-- The failures the embedded code can surface.  The constructors other than
`invalidParameter` name the Python exceptions `generate_totp` can raise:
`ZeroDivisionError` (division by a zero `period`), `OverflowError`
(`int.to_bytes` on a negative or `≥ 2 ^ 64` counter), and `ValueError`
(`hmac.digest` given an algorithm name hashlib cannot resolve).
`invalidParameter` renders the spec's `InvalidParameter` condition; no code
path produces it. -/
inductive PyError where
  | zeroDivisionError
  | overflowError
  | valueError
  | invalidParameter
deriving DecidableEq

deriving instance DecidableEq for Except

/-- `hmac.digest(key, msg, alg)`: the digest when `alg` resolves, and
`ValueError` when hashlib cannot resolve the name.  Python resolves names
through the `hashlib` registry, which accepts many spellings beyond the
spec's three (the canonical lowercase names, `MD5`, `SHA384`, further
OpenSSL-dependent entries); this model resolves the spec's three names and
their canonical lowercase hashlib spellings, and its final branch stands
for names hashlib cannot resolve — names the model leaves out (such as
`"MD5"`) land in that branch unfaithfully, so no theorem of this file
rests on it. -/
def hmacDigest (alg : String) (key msg : List Nat) : Except PyError (List Nat) :=
  if supportedAlg alg then Except.ok (hmacRaw alg key msg)
  else if alg = "sha1" then Except.ok (hmacRaw "SHA1" key msg)
  else if alg = "sha256" then Except.ok (hmacRaw "SHA256" key msg)
  else if alg = "sha512" then Except.ok (hmacRaw "SHA512" key msg)
  else Except.error PyError.valueError

theorem hmacDigest_of_supported (alg : String) (key msg : List Nat)
    (h : supportedAlg alg = true) :
    hmacDigest alg key msg = Except.ok (hmacRaw alg key msg) := by
  simp [hmacDigest, h]

/-- The character `'0' + n` for a decimal digit `n`. -/
def digitChar (n : Nat) : Char := Char.ofNat (48 + n)

/-- Decimal digits of `n`, most significant first; `fuel` bounds the
recursion and any `fuel > n` is enough. -/
def natToDigitsAux : Nat → Nat → List Char
  | 0, _ => []
  | fuel + 1, n =>
    if n < 10 then [digitChar n]
    else natToDigitsAux fuel (n / 10) ++ [digitChar (n % 10)]

/-- The model of Python `str` on a non-negative integer. -/
def natToString (n : Nat) : String := String.mk (natToDigitsAux (n + 1) n)

/-- The model of Python `str.rjust(width, '0')`. -/
def rjust (width : Nat) (s : String) : String :=
  String.mk (List.replicate (width - s.data.length) '0' ++ s.data)

/-- The model of Python `int`'s `.to_bytes(8, 'big')` on an arbitrary
integer: `OverflowError` outside `[0, 2 ^ 64)`. -/
def intToBytes8 (i : Int) : Except PyError (List Nat) :=
  if i < 0 then Except.error PyError.overflowError
  else if (18446744073709551616 : Int) ≤ i then Except.error PyError.overflowError
  else Except.ok (toBytesBE 8 i.toNat)

/-! ## `generate_totp` -/

/-- The dynamic-truncation expression of the source, on a digest
`hash_digest` (`hash_digest[-1]` is `getD (length - 1)`; indexing is `getD`,
justified by the in-bounds theorem for the supported digests below):

```python
offset = hash_digest[-1] & 0xf
binary = (((hash_digest[offset] & 0x7f) << 24) |
          ((hash_digest[offset + 1] & 0xff) << 16) |
          ((hash_digest[offset + 2] & 0xff) << 8) |
          (hash_digest[offset + 3] & 0xff))
```
-/
def truncBinary (hash_digest : List Nat) : Nat :=
  let offset := hash_digest.getD (hash_digest.length - 1) 0 &&& 15
  ((hash_digest.getD offset 0 &&& 127) <<< 24) |||
  ((hash_digest.getD (offset + 1) 0 &&& 255) <<< 16) |||
  ((hash_digest.getD (offset + 2) 0 &&& 255) <<< 8) |||
  (hash_digest.getD (offset + 3) 0 &&& 255)

/-- The embedding of `generate_totp(secret, digits, period, algorithm)` from
`totp_2fa_generator.py`, with the wall-clock reading `now` passed explicitly
and the secret already encoded to bytes:

```python
steps = math.floor(time.time() / period).to_bytes(8, 'big')
hash_digest = hmac.digest(secret.encode(), steps, algorithm)
...dynamic truncation (see truncBinary)...
return str(binary % 10**digits).rjust(digits, '0')
```
-/
def generate_totp (secret : List Nat) (digits : Nat) (period : Int)
    (algorithm : String) (now : ℚ) : Except PyError String :=
  if period = 0 then Except.error PyError.zeroDivisionError
  else
    match intToBytes8 (Int.floor (Rat.divInt now.num (now.den * period))) with
    | Except.error e => Except.error e
    | Except.ok steps =>
      match hmacDigest algorithm secret steps with
      | Except.error e => Except.error e
      | Except.ok hash_digest =>
        Except.ok (rjust digits (natToString (truncBinary hash_digest % 10 ^ digits)))

/-- The counter expression inside `generate_totp` is exactly
`math.floor(now / period)`: the `Rat.divInt` form (chosen because it is
kernel-reducible) denotes the same rational as `now / period`. -/
theorem divInt_counter_eq (now : ℚ) (period : Int) :
    Int.floor (Rat.divInt now.num (now.den * period)) = ⌊now / (period : ℚ)⌋ := by
  congr 1
  rw [Rat.divInt_eq_div]
  push_cast
  rw [div_mul_eq_div_div, Rat.num_div_den]

/-- ASCII encoding of a string whose characters are all below `U+0080`
(the bytes `str.encode()` yields on such a string). -/
def asciiBytes (s : String) : List Nat := s.data.map Char.toNat

/-! ## Arithmetic facts about the dynamic truncation -/

theorem getD_lt_256 (l : List Nat) (hb : ∀ b ∈ l, b < 256) (i : Nat) :
    l.getD i 0 < 256 := by
  induction l generalizing i with
  | nil => simp [List.getD]
  | cons x xs ih =>
    cases i with
    | zero => exact hb x (List.mem_cons_self x xs)
    | succ j =>
      simpa using ih (fun b hb2 => hb b (List.mem_cons_of_mem x hb2)) j

theorem or_low (i a b : Nat) (h : b < 2 ^ i) : a * 2 ^ i ||| b = a * 2 ^ i + b := by
  rw [mul_comm a (2 ^ i)]
  exact (Nat.mul_add_lt_is_or h a).symm

/-- Packing four big-endian pieces with `<<<`/`|||` is plain arithmetic. -/
theorem or_pack (b0 b1 b2 b3 : Nat) (_h0 : b0 < 128) (h1 : b1 < 256)
    (h2 : b2 < 256) (h3 : b3 < 256) :
    (b0 <<< 24) ||| (b1 <<< 16) ||| (b2 <<< 8) ||| b3 =
      b0 * 16777216 + b1 * 65536 + b2 * 256 + b3 := by
  have h3' : b3 < 2 ^ 8 := by norm_num [h3]
  have h23 : b2 * 2 ^ 8 + b3 < 2 ^ 16 := by norm_num at h3' ⊢; nlinarith
  have h123 : b1 * 2 ^ 16 + (b2 * 2 ^ 8 + b3) < 2 ^ 24 := by
    norm_num at h23 ⊢; nlinarith
  rw [Nat.shiftLeft_eq, Nat.shiftLeft_eq, Nat.shiftLeft_eq, Nat.or_assoc,
    Nat.or_assoc, or_low 8 b2 b3 h3', or_low 16 b1 _ h23, or_low 24 b0 _ h123]
  norm_num
  ring

/-- The truncated value, written the way the spec describes it: low nibble of
the final byte as offset, first selected byte masked to 7 bits, the four
bytes combined big-endian by plain arithmetic. -/
def specTruncate (d : List Nat) : Nat :=
  let offset := d.getD (d.length - 1) 0 % 16
  (d.getD offset 0 % 128) * 16777216 + d.getD (offset + 1) 0 * 65536 +
    d.getD (offset + 2) 0 * 256 + d.getD (offset + 3) 0

theorem and_15_eq_mod (x : Nat) : x &&& 15 = x % 16 := by
  have := Nat.and_pow_two_sub_one_eq_mod x 4
  norm_num at this
  exact this

theorem and_127_eq_mod (x : Nat) : x &&& 127 = x % 128 := by
  have := Nat.and_pow_two_sub_one_eq_mod x 7
  norm_num at this
  exact this

theorem and_255_eq_mod (x : Nat) : x &&& 255 = x % 256 := by
  have := Nat.and_pow_two_sub_one_eq_mod x 8
  norm_num at this
  exact this

/-- On a digest of bytes, the source's shift/or/mask expression computes the
spec's big-endian formula. -/
theorem truncBinary_eq_spec (d : List Nat) (hb : ∀ b ∈ d, b < 256) :
    truncBinary d = specTruncate d := by
  have hD : ∀ i, d.getD i 0 < 256 := getD_lt_256 d hb
  rw [truncBinary, specTruncate, and_15_eq_mod, and_127_eq_mod, and_255_eq_mod,
    and_255_eq_mod, and_255_eq_mod]
  rw [Nat.mod_eq_of_lt (hD _), Nat.mod_eq_of_lt (hD _), Nat.mod_eq_of_lt (hD _)]
  exact or_pack _ _ _ _ (Nat.mod_lt _ (by norm_num)) (hD _) (hD _) (hD _)

theorem pack_lt (b0 b1 b2 b3 : Nat) (h0 : b0 < 128) (h1 : b1 < 256)
    (h2 : b2 < 256) (h3 : b3 < 256) :
    b0 * 16777216 + b1 * 65536 + b2 * 256 + b3 < 2 ^ 31 := by
  norm_num
  nlinarith

/-- The truncated value is a non-negative 31-bit integer. -/
theorem specTruncate_lt (d : List Nat) (hb : ∀ b ∈ d, b < 256) :
    specTruncate d < 2 ^ 31 := by
  have hD : ∀ i, d.getD i 0 < 256 := getD_lt_256 d hb
  rw [specTruncate]
  exact pack_lt _ _ _ _ (Nat.mod_lt _ (by norm_num)) (hD _) (hD _) (hD _)

/-! ## Decimal rendering facts -/

theorem digitChar_isDigit (n : Nat) (h : n < 10) : (digitChar n).isDigit = true := by
  interval_cases n <;> decide

theorem natToDigitsAux_length_le (fuel n d : Nat) (hf : n < fuel) (hd : 1 ≤ d)
    (hn : n < 10 ^ d) : (natToDigitsAux fuel n).length ≤ d := by
  induction fuel generalizing n d with
  | zero => omega
  | succ fuel ih =>
    rw [natToDigitsAux]
    split
    · simpa using hd
    · rename_i h10
      have hd2 : 2 ≤ d := by
        by_contra hcon
        have hd1 : d = 1 := by omega
        subst hd1
        norm_num at hn
        omega
      have hdiv : n / 10 < 10 ^ (d - 1) := by
        rw [Nat.div_lt_iff_lt_mul (by norm_num)]
        calc n < 10 ^ d := hn
          _ = 10 ^ (d - 1) * 10 := by
            rw [← pow_succ]
            congr 1
            omega
      have := ih (n / 10) (d - 1) (by omega) (by omega) hdiv
      simp only [List.length_append, List.length_singleton]
      omega

theorem natToDigitsAux_isDigit (fuel n : Nat) :
    ∀ c ∈ natToDigitsAux fuel n, c.isDigit = true := by
  induction fuel generalizing n with
  | zero => simp [natToDigitsAux]
  | succ fuel ih =>
    intro c hc
    rw [natToDigitsAux] at hc
    split at hc
    · rename_i h10
      simp only [List.mem_singleton] at hc
      subst hc
      exact digitChar_isDigit n (by omega)
    · simp only [List.mem_append, List.mem_singleton] at hc
      rcases hc with hc | hc
      · exact ih _ c hc
      · subst hc
        exact digitChar_isDigit _ (Nat.mod_lt _ (by norm_num))

theorem natToString_length_le (n d : Nat) (hd : 1 ≤ d) (hn : n < 10 ^ d) :
    (natToString n).data.length ≤ d :=
  natToDigitsAux_length_le (n + 1) n d (by omega) hd hn

theorem natToString_isDigit (n : Nat) : ∀ c ∈ (natToString n).data, c.isDigit = true :=
  natToDigitsAux_isDigit (n + 1) n

theorem rjust_length (w : Nat) (s : String) (h : s.data.length ≤ w) :
    (rjust w s).data.length = w := by
  simp only [rjust, List.length_append, List.length_replicate]
  omega

theorem rjust_isDigit (w : Nat) (s : String)
    (h : ∀ c ∈ s.data, c.isDigit = true) :
    ∀ c ∈ (rjust w s).data, c.isDigit = true := by
  intro c hc
  simp only [rjust, List.mem_append, List.mem_replicate] at hc
  rcases hc with hc | hc
  · rw [hc.2]
    decide
  · exact h c hc

/-! ## The successful path of `generate_totp` -/

/-- When the period is positive, the clock non-negative, the counter
representable and the algorithm supported, `generate_totp` succeeds and
returns the zero-padded decimal rendering of the truncated HMAC value. -/
theorem generate_totp_ok (secret : List Nat) (digits : Nat) (period : Int)
    (algorithm : String) (now : ℚ) (halg : supportedAlg algorithm = true)
    (hp : 0 < period) (ht : 0 ≤ now)
    (hlt : ⌊now / (period : ℚ)⌋ < 18446744073709551616) :
    generate_totp secret digits period algorithm now =
      Except.ok (rjust digits (natToString
        (truncBinary (hmacRaw algorithm secret
          (toBytesBE 8 (⌊now / (period : ℚ)⌋).toNat)) % 10 ^ digits))) := by
  have hfl : 0 ≤ ⌊now / (period : ℚ)⌋ := by
    apply Int.floor_nonneg.mpr
    apply div_nonneg ht
    exact_mod_cast hp.le
  rw [generate_totp, if_neg (by omega : ¬ period = 0), divInt_counter_eq]
  rw [intToBytes8, if_neg (by omega), if_neg (by omega)]
  simp only [hmacDigest_of_supported _ _ _ halg]

/-! ## The failure paths of `generate_totp` -/

/-- At any strictly positive clock value, a non-positive period makes
`generate_totp` fail before any HMAC is computed: `ZeroDivisionError` for
a zero period, `OverflowError` for a negative one (whose counter is a
negative integer that `int.to_bytes` rejects). -/
theorem generate_totp_period_err (secret : List Nat) (digits : Nat)
    (period : Int) (algorithm : String) (now : ℚ) (ht : 0 < now)
    (hp : period ≤ 0) :
    generate_totp secret digits period algorithm now =
        Except.error PyError.zeroDivisionError ∨
      generate_totp secret digits period algorithm now =
        Except.error PyError.overflowError := by
  rcases hp.lt_or_eq with hneg | hz
  · right
    have hq : now / (period : ℚ) < 0 := by
      apply div_neg_of_pos_of_neg ht
      exact_mod_cast hneg
    have hfl : ⌊now / (period : ℚ)⌋ < 0 := by
      by_contra hcon
      exact absurd (Int.floor_nonneg.mp (by omega)) (not_le.mpr hq)
    rw [generate_totp, if_neg (by omega : ¬ period = 0), divInt_counter_eq,
      intToBytes8, if_pos hfl]
  · left
    rw [generate_totp, if_pos hz]

/-! ## `generate_totp_url` and its stdlib models -/

/-- The model of Python `str` on an integer. -/
def intToString (i : Int) : String :=
  if i < 0 then String.mk ('-' :: natToDigitsAux (i.natAbs + 1) i.natAbs)
  else natToString i.toNat

/-- The RFC 4648 base32 alphabet. -/
def b32Alphabet : List Char := "ABCDEFGHIJKLMNOPQRSTUVWXYZ234567".data

/-- The alphabet character of a 5-bit value. -/
def b32Char (n : Nat) : Char := b32Alphabet.getD n 'A'

/-- The eight base32 characters of a 40-bit value, most significant five
bits first. -/
def b32GroupN (n : Nat) : List Char :=
  [b32Char (n / 34359738368 % 32), b32Char (n / 1073741824 % 32),
   b32Char (n / 33554432 % 32), b32Char (n / 1048576 % 32),
   b32Char (n / 32768 % 32), b32Char (n / 1024 % 32),
   b32Char (n / 32 % 32), b32Char (n % 32)]

/-- Encode one 5-byte group as eight base32 characters. -/
def b32Group (b0 b1 b2 b3 b4 : Nat) : List Char :=
  b32GroupN (b0 * 4294967296 + b1 * 16777216 + b2 * 65536 + b3 * 256 + b4)

/-- The model of `base64.b32encode` (RFC 4648 §6): full 5-byte groups map to
8 characters; a trailing partial group is zero-extended, truncated to the
significant characters and `'='`-padded to 8. -/
def b32encode : List Nat → List Char
  | [] => []
  | [b0] => (b32Group b0 0 0 0 0).take 2 ++ List.replicate 6 '='
  | [b0, b1] => (b32Group b0 b1 0 0 0).take 4 ++ List.replicate 4 '='
  | [b0, b1, b2] => (b32Group b0 b1 b2 0 0).take 5 ++ List.replicate 3 '='
  | [b0, b1, b2, b3] => (b32Group b0 b1 b2 b3 0).take 7 ++ ['=']
  | b0 :: b1 :: b2 :: b3 :: b4 :: rest => b32Group b0 b1 b2 b3 b4 ++ b32encode rest

/-- The model of Python `str.rstrip('=')`. -/
def rstripEq (cs : List Char) : List Char :=
  (cs.reverse.dropWhile (fun c => c = '=')).reverse

/-- The embedding of `generate_totp_url(secret, issuer, user, algorithm,
digits, period)` from `totp_2fa_generator.py`, the secret already encoded
to bytes:

```python
b32_encoded_secret = base64.b32encode(secret.encode()).decode().rstrip('=')
return (f"otpauth://totp/{issuer}:{user}"
        f"?secret={b32_encoded_secret}"
        f"&issuer={issuer}"
        f"&algorithm={algorithm}"
        f"&digits={digits}"
        f"&period={period}")
```
-/
def generate_totp_url (secret : List Nat) (issuer user : String)
    (algorithm : String) (digits : Nat) (period : Int) : String :=
  "otpauth://totp/" ++ issuer ++ ":" ++ user ++
    "?secret=" ++ String.mk (rstripEq (b32encode secret)) ++
    "&issuer=" ++ issuer ++
    "&algorithm=" ++ algorithm ++
    "&digits=" ++ natToString digits ++
    "&period=" ++ intToString period

/-! ## Base32 decoding and URI parsing (for the round-trip claims) -/

/-- The 5-bit value of an alphabet character (`List.indexOf`; 32 on a
character outside the alphabet). -/
def b32Val (c : Char) : Nat := b32Alphabet.indexOf c

/-- Decode one 8-character base32 block: `'='` padding may close the block;
RFC 4648 admits 0, 1, 3, 4 or 6 padding characters, anything else is
rejected. -/
def b32decodeBlock (cs : List Char) : Option (List Nat) :=
  let pads := (cs.reverse.takeWhile (fun c => c = '=')).length
  let n := cs.foldl (fun a c => a * 32 + if c = '=' then 0 else b32Val c) 0
  let bytes := [n / 4294967296 % 256, n / 16777216 % 256, n / 65536 % 256,
                n / 256 % 256, n % 256]
  match pads with
  | 0 => some bytes
  | 1 => some (bytes.take 4)
  | 3 => some (bytes.take 3)
  | 4 => some (bytes.take 2)
  | 6 => some (bytes.take 1)
  | _ => none

/-- The model of `base64.b32decode` on a properly padded input: decode
8-character blocks; a final partial block is invalid. -/
def b32decode : List Char → Option (List Nat)
  | [] => some []
  | c0 :: c1 :: c2 :: c3 :: c4 :: c5 :: c6 :: c7 :: rest =>
    (b32decodeBlock [c0, c1, c2, c3, c4, c5, c6, c7]).bind
      (fun bs => (b32decode rest).map (fun bs2 => bs ++ bs2))
  | _ => none

/-- Restore the `'='` padding a base32 string was stripped of (pad to the
next multiple of 8). -/
def restorePad (cs : List Char) : List Char :=
  cs ++ List.replicate ((8 - cs.length % 8) % 8) '='

/-- Split at the first occurrence of `d`, if any. -/
def splitFirst (d : Char) : List Char → Option (List Char × List Char)
  | [] => none
  | c :: cs =>
    if c = d then some ([], cs)
    else (splitFirst d cs).map (fun p => (c :: p.1, p.2))

/-- The query part of a URI: everything after the first `'?'`. -/
def queryOf (uri : String) : Option (List Char) :=
  (splitFirst '?' uri.data).map (fun p => p.2)

/-- Split on every occurrence of `d` (`str.split` semantics). -/
def splitAllAux (d : Char) : List Char → List Char → List (List Char)
  | [], acc => [acc.reverse]
  | c :: cs, acc =>
    if c = d then acc.reverse :: splitAllAux d cs []
    else splitAllAux d cs (c :: acc)

/-- Split on every occurrence of `d`. -/
def splitAll (d : Char) (cs : List Char) : List (List Char) := splitAllAux d cs []

/-- Does `p` start with `key`? -/
def startsWithChars : List Char → List Char → Bool
  | [], _ => true
  | _, [] => false
  | k :: ks, c :: cs => k = c && startsWithChars ks cs

/-- The value of the first `key=` parameter of a parameter list. -/
def lookupParam (key : List Char) : List (List Char) → Option (List Char)
  | [] => none
  | p :: ps =>
    if startsWithChars (key ++ ['=']) p then some (p.drop (key.length + 1))
    else lookupParam key ps

/-- The value of the first `key=` parameter of a URI's query. -/
def paramOf (uri : String) (key : String) : Option (List Char) :=
  (queryOf uri).bind (fun q => lookupParam key.data (splitAll '&' q))

/-! ## Base32 round trip -/

theorem b32Val_b32Char (i : Nat) (h : i < 32) : b32Val (b32Char i) = i := by
  interval_cases i <;> decide

theorem b32Char_pad_false (i : Nat) (h : i < 32) :
    decide (b32Char i = '=') = false := by
  interval_cases i <;> decide

theorem b32Char_eq_pad_false (i : Nat) (h : i < 32) : (b32Char i = '=') = False := by
  interval_cases i <;> decide

set_option maxHeartbeats 1000000 in
theorem b32rt_1 (b0 : Nat) (h0 : b0 < 256) :
    b32decode (b32encode [b0]) = some [b0] := by
  have hlt : ∀ m : Nat, m % 32 < 32 := fun m => Nat.mod_lt _ (by norm_num)
  simp only [b32encode, b32Group, b32GroupN, List.take_succ_cons,
    List.take_zero, List.replicate, List.cons_append, List.nil_append]
  simp only [b32decode]
  rw [b32decodeBlock]
  simp only [List.reverse_cons, List.reverse_nil, List.nil_append,
    List.cons_append, List.takeWhile_cons, b32Char_pad_false _ (hlt _),
    Bool.false_eq_true, if_false, decide_True, if_true,
    b32Char_eq_pad_false _ (hlt _), b32Val_b32Char _ (hlt _), decide_False,
    List.length_nil, List.length_cons, List.foldl_cons, List.foldl_nil,
    Option.some_bind, Option.map_some',
    List.take_succ_cons, List.take_zero, Option.some.injEq, List.cons.injEq,
    and_true, List.append_nil]
  omega

set_option maxHeartbeats 1000000 in
theorem b32rt_2 (b0 b1 : Nat) (h0 : b0 < 256) (h1 : b1 < 256) :
    b32decode (b32encode [b0, b1]) = some [b0, b1] := by
  have hlt : ∀ m : Nat, m % 32 < 32 := fun m => Nat.mod_lt _ (by norm_num)
  simp only [b32encode, b32Group, b32GroupN, List.take_succ_cons,
    List.take_zero, List.replicate, List.cons_append, List.nil_append]
  simp only [b32decode]
  rw [b32decodeBlock]
  simp only [List.reverse_cons, List.reverse_nil, List.nil_append,
    List.cons_append, List.takeWhile_cons, b32Char_pad_false _ (hlt _),
    Bool.false_eq_true, if_false, decide_True, if_true,
    b32Char_eq_pad_false _ (hlt _), b32Val_b32Char _ (hlt _), decide_False,
    List.length_nil, List.length_cons, List.foldl_cons, List.foldl_nil,
    Option.some_bind, Option.map_some',
    List.take_succ_cons, List.take_zero, Option.some.injEq, List.cons.injEq,
    and_true, List.append_nil]
  omega

set_option maxHeartbeats 1000000 in
theorem b32rt_3 (b0 b1 b2 : Nat) (h0 : b0 < 256) (h1 : b1 < 256) (h2 : b2 < 256) :
    b32decode (b32encode [b0, b1, b2]) = some [b0, b1, b2] := by
  have hlt : ∀ m : Nat, m % 32 < 32 := fun m => Nat.mod_lt _ (by norm_num)
  simp only [b32encode, b32Group, b32GroupN, List.take_succ_cons,
    List.take_zero, List.replicate, List.cons_append, List.nil_append]
  simp only [b32decode]
  rw [b32decodeBlock]
  simp only [List.reverse_cons, List.reverse_nil, List.nil_append,
    List.cons_append, List.takeWhile_cons, b32Char_pad_false _ (hlt _),
    Bool.false_eq_true, if_false, decide_True, if_true,
    b32Char_eq_pad_false _ (hlt _), b32Val_b32Char _ (hlt _), decide_False,
    List.length_nil, List.length_cons, List.foldl_cons, List.foldl_nil,
    Option.some_bind, Option.map_some',
    List.take_succ_cons, List.take_zero, Option.some.injEq, List.cons.injEq,
    and_true, List.append_nil]
  omega

set_option maxHeartbeats 1000000 in
theorem b32rt_4 (b0 b1 b2 b3 : Nat) (h0 : b0 < 256) (h1 : b1 < 256)
    (h2 : b2 < 256) (h3 : b3 < 256) :
    b32decode (b32encode [b0, b1, b2, b3]) = some [b0, b1, b2, b3] := by
  have hlt : ∀ m : Nat, m % 32 < 32 := fun m => Nat.mod_lt _ (by norm_num)
  simp only [b32encode, b32Group, b32GroupN, List.take_succ_cons,
    List.take_zero, List.replicate, List.cons_append, List.nil_append]
  simp only [b32decode]
  rw [b32decodeBlock]
  simp only [List.reverse_cons, List.reverse_nil, List.nil_append,
    List.cons_append, List.takeWhile_cons, b32Char_pad_false _ (hlt _),
    Bool.false_eq_true, if_false, decide_True, if_true,
    b32Char_eq_pad_false _ (hlt _), b32Val_b32Char _ (hlt _), decide_False,
    List.length_nil, List.length_cons, List.foldl_cons, List.foldl_nil,
    Option.some_bind, Option.map_some',
    List.take_succ_cons, List.take_zero, Option.some.injEq, List.cons.injEq,
    and_true, List.append_nil]
  omega

set_option maxHeartbeats 1000000 in
theorem b32rt_step (b0 b1 b2 b3 b4 : Nat) (rest : List Nat) (h0 : b0 < 256)
    (h1 : b1 < 256) (h2 : b2 < 256) (h3 : b3 < 256) (h4 : b4 < 256)
    (hrest : b32decode (b32encode rest) = some rest) :
    b32decode (b32encode (b0 :: b1 :: b2 :: b3 :: b4 :: rest)) =
      some (b0 :: b1 :: b2 :: b3 :: b4 :: rest) := by
  have hlt : ∀ m : Nat, m % 32 < 32 := fun m => Nat.mod_lt _ (by norm_num)
  simp only [b32encode, b32Group, b32GroupN, List.cons_append]
  simp only [b32decode, hrest]
  rw [b32decodeBlock]
  simp only [List.reverse_cons, List.reverse_nil, List.nil_append,
    List.cons_append, List.takeWhile_cons, b32Char_pad_false _ (hlt _),
    Bool.false_eq_true, if_false, decide_True, if_true,
    b32Char_eq_pad_false _ (hlt _), b32Val_b32Char _ (hlt _), decide_False,
    List.length_nil, List.length_cons, List.foldl_cons, List.foldl_nil,
    Option.some_bind, Option.map_some', Option.some.injEq, List.cons.injEq,
    and_true]
  rw [hrest]
  simp only [Option.map_some', Option.some.injEq, List.cons.injEq, and_true]
  omega

theorem b32decode_b32encode (bs : List Nat) :
    (∀ b ∈ bs, b < 256) → b32decode (b32encode bs) = some bs := by
  induction bs using b32encode.induct with
  | case1 => intro _; rfl
  | case2 b0 => intro h; exact b32rt_1 b0 (h b0 (by simp))
  | case3 b0 b1 => intro h; exact b32rt_2 b0 b1 (h b0 (by simp)) (h b1 (by simp))
  | case4 b0 b1 b2 =>
    intro h
    exact b32rt_3 b0 b1 b2 (h b0 (by simp)) (h b1 (by simp)) (h b2 (by simp))
  | case5 b0 b1 b2 b3 =>
    intro h
    exact b32rt_4 b0 b1 b2 b3 (h b0 (by simp)) (h b1 (by simp)) (h b2 (by simp))
      (h b3 (by simp))
  | case6 b0 b1 b2 b3 b4 rest ih =>
    intro h
    exact b32rt_step b0 b1 b2 b3 b4 rest (h b0 (by simp)) (h b1 (by simp))
      (h b2 (by simp)) (h b3 (by simp)) (h b4 (by simp))
      (ih (fun b hb => h b (by simp [hb])))

/-! ## Stripping and restoring base32 padding -/

theorem rstripEq_append_keep (xs ys : List Char)
    (hx : xs.reverse.dropWhile (fun c => decide (c = '=')) = xs.reverse) :
    rstripEq (xs ++ ys) = xs ++ rstripEq ys := by
  rw [rstripEq, List.reverse_append, List.dropWhile_append]
  split
  · rename_i hemp
    have h2 : rstripEq ys = [] := by
      rw [rstripEq, List.isEmpty_iff.mp hemp, List.reverse_nil]
    rw [hx, List.reverse_reverse, h2, List.append_nil]
  · rw [List.reverse_append, List.reverse_reverse, rstripEq]

theorem restorePad_append8 (xs ys : List Char) (h : xs.length = 8) :
    restorePad (xs ++ ys) = xs ++ restorePad ys := by
  simp [restorePad, List.length_append, h, List.append_assoc, Nat.add_mod_left]

set_option maxHeartbeats 1000000 in
theorem rstrip_restore_1 (b0 : Nat) :
    restorePad (rstripEq (b32encode [b0])) = b32encode [b0] := by
  have hlt : ∀ m : Nat, m % 32 < 32 := fun m => Nat.mod_lt _ (by norm_num)
  simp only [b32encode, b32Group, b32GroupN, List.take_succ_cons,
    List.take_zero, List.replicate, List.nil_append, List.cons_append]
  rw [show ∀ c0 c1 : Char, (c0 :: c1 :: '=' :: '=' :: '=' :: '=' :: '=' :: '=' :: [] : List Char) =
    [c0, c1] ++ ('=' :: '=' :: '=' :: '=' :: '=' :: '=' :: []) from fun _ _ => rfl]
  rw [rstripEq_append_keep]
  · have h2 : rstripEq ('=' :: '=' :: '=' :: '=' :: '=' :: '=' :: [] : List Char) = [] := by
      decide
    rw [h2, List.append_nil, restorePad]
    norm_num [List.replicate]
  · simp only [List.reverse_cons, List.reverse_nil, List.nil_append,
      List.cons_append, List.dropWhile_cons, b32Char_pad_false _ (hlt _),
      Bool.false_eq_true, if_false]

set_option maxHeartbeats 1000000 in
theorem rstrip_restore_2 (b0 b1 : Nat) :
    restorePad (rstripEq (b32encode [b0, b1])) = b32encode [b0, b1] := by
  have hlt : ∀ m : Nat, m % 32 < 32 := fun m => Nat.mod_lt _ (by norm_num)
  simp only [b32encode, b32Group, b32GroupN, List.take_succ_cons,
    List.take_zero, List.replicate, List.nil_append, List.cons_append]
  rw [show ∀ c0 c1 c2 c3 : Char,
    (c0 :: c1 :: c2 :: c3 :: '=' :: '=' :: '=' :: '=' :: [] : List Char) =
    [c0, c1, c2, c3] ++ ('=' :: '=' :: '=' :: '=' :: []) from fun _ _ _ _ => rfl]
  rw [rstripEq_append_keep]
  · have h2 : rstripEq ('=' :: '=' :: '=' :: '=' :: [] : List Char) = [] := by
      decide
    rw [h2, List.append_nil, restorePad]
    norm_num [List.replicate]
  · simp only [List.reverse_cons, List.reverse_nil, List.nil_append,
      List.cons_append, List.dropWhile_cons, b32Char_pad_false _ (hlt _),
      Bool.false_eq_true, if_false]

set_option maxHeartbeats 1000000 in
theorem rstrip_restore_3 (b0 b1 b2 : Nat) :
    restorePad (rstripEq (b32encode [b0, b1, b2])) = b32encode [b0, b1, b2] := by
  have hlt : ∀ m : Nat, m % 32 < 32 := fun m => Nat.mod_lt _ (by norm_num)
  simp only [b32encode, b32Group, b32GroupN, List.take_succ_cons,
    List.take_zero, List.replicate, List.nil_append, List.cons_append]
  rw [show ∀ c0 c1 c2 c3 c4 : Char,
    (c0 :: c1 :: c2 :: c3 :: c4 :: '=' :: '=' :: '=' :: [] : List Char) =
    [c0, c1, c2, c3, c4] ++ ('=' :: '=' :: '=' :: []) from fun _ _ _ _ _ => rfl]
  rw [rstripEq_append_keep]
  · have h2 : rstripEq ('=' :: '=' :: '=' :: [] : List Char) = [] := by decide
    rw [h2, List.append_nil, restorePad]
    norm_num [List.replicate]
  · simp only [List.reverse_cons, List.reverse_nil, List.nil_append,
      List.cons_append, List.dropWhile_cons, b32Char_pad_false _ (hlt _),
      Bool.false_eq_true, if_false]

set_option maxHeartbeats 1000000 in
theorem rstrip_restore_4 (b0 b1 b2 b3 : Nat) :
    restorePad (rstripEq (b32encode [b0, b1, b2, b3])) = b32encode [b0, b1, b2, b3] := by
  have hlt : ∀ m : Nat, m % 32 < 32 := fun m => Nat.mod_lt _ (by norm_num)
  simp only [b32encode, b32Group, b32GroupN, List.take_succ_cons,
    List.take_zero, List.replicate, List.nil_append, List.cons_append]
  rw [show ∀ c0 c1 c2 c3 c4 c5 c6 : Char,
    (c0 :: c1 :: c2 :: c3 :: c4 :: c5 :: c6 :: '=' :: [] : List Char) =
    [c0, c1, c2, c3, c4, c5, c6] ++ ('=' :: []) from fun _ _ _ _ _ _ _ => rfl]
  rw [rstripEq_append_keep]
  · have h2 : rstripEq ('=' :: [] : List Char) = [] := by decide
    rw [h2, List.append_nil, restorePad]
    norm_num [List.replicate]
  · simp only [List.reverse_cons, List.reverse_nil, List.nil_append,
      List.cons_append, List.dropWhile_cons, b32Char_pad_false _ (hlt _),
      Bool.false_eq_true, if_false]

set_option maxHeartbeats 1000000 in
theorem rstrip_restore_step (b0 b1 b2 b3 b4 : Nat) (rest : List Nat)
    (ih : restorePad (rstripEq (b32encode rest)) = b32encode rest) :
    restorePad (rstripEq (b32encode (b0 :: b1 :: b2 :: b3 :: b4 :: rest))) =
      b32encode (b0 :: b1 :: b2 :: b3 :: b4 :: rest) := by
  have hlt : ∀ m : Nat, m % 32 < 32 := fun m => Nat.mod_lt _ (by norm_num)
  simp only [b32encode, b32Group, b32GroupN]
  rw [rstripEq_append_keep, restorePad_append8, ih]
  · simp
  · simp only [List.reverse_cons, List.reverse_nil, List.nil_append,
      List.cons_append, List.dropWhile_cons, b32Char_pad_false _ (hlt _),
      Bool.false_eq_true, if_false]

theorem rstrip_restore (bs : List Nat) :
    restorePad (rstripEq (b32encode bs)) = b32encode bs := by
  induction bs using b32encode.induct with
  | case1 => decide
  | case2 b0 => exact rstrip_restore_1 b0
  | case3 b0 b1 => exact rstrip_restore_2 b0 b1
  | case4 b0 b1 b2 => exact rstrip_restore_3 b0 b1 b2
  | case5 b0 b1 b2 b3 => exact rstrip_restore_4 b0 b1 b2 b3
  | case6 b0 b1 b2 b3 b4 rest ih => exact rstrip_restore_step b0 b1 b2 b3 b4 rest ih

/-! ## Character classes of the URI pieces -/

theorem b32Char_mem_alphabet (i : Nat) (h : i < 32) : b32Char i ∈ b32Alphabet := by
  interval_cases i <;> decide

set_option maxHeartbeats 1000000 in
theorem b32encode_mem (bs : List Nat) :
    ∀ c ∈ b32encode bs, c ∈ b32Alphabet ∨ c = '=' := by
  have hlt : ∀ m : Nat, m % 32 < 32 := fun m => Nat.mod_lt _ (by norm_num)
  induction bs using b32encode.induct with
  | case1 => simp [b32encode]
  | case2 b0 =>
    intro c hc
    simp only [b32encode, b32Group, b32GroupN, List.take_succ_cons,
      List.take_zero, List.mem_append, List.mem_replicate, List.mem_cons,
      List.not_mem_nil, or_false] at hc
    rcases hc with (rfl | rfl) | ⟨-, rfl⟩
    · exact Or.inl (b32Char_mem_alphabet _ (hlt _))
    · exact Or.inl (b32Char_mem_alphabet _ (hlt _))
    · exact Or.inr rfl
  | case3 b0 b1 =>
    intro c hc
    simp only [b32encode, b32Group, b32GroupN, List.take_succ_cons,
      List.take_zero, List.mem_append, List.mem_replicate, List.mem_cons,
      List.not_mem_nil, or_false] at hc
    rcases hc with (rfl | rfl | rfl | rfl) | ⟨-, rfl⟩
    · exact Or.inl (b32Char_mem_alphabet _ (hlt _))
    · exact Or.inl (b32Char_mem_alphabet _ (hlt _))
    · exact Or.inl (b32Char_mem_alphabet _ (hlt _))
    · exact Or.inl (b32Char_mem_alphabet _ (hlt _))
    · exact Or.inr rfl
  | case4 b0 b1 b2 =>
    intro c hc
    simp only [b32encode, b32Group, b32GroupN, List.take_succ_cons,
      List.take_zero, List.mem_append, List.mem_replicate, List.mem_cons,
      List.not_mem_nil, or_false] at hc
    rcases hc with (rfl | rfl | rfl | rfl | rfl) | ⟨-, rfl⟩
    · exact Or.inl (b32Char_mem_alphabet _ (hlt _))
    · exact Or.inl (b32Char_mem_alphabet _ (hlt _))
    · exact Or.inl (b32Char_mem_alphabet _ (hlt _))
    · exact Or.inl (b32Char_mem_alphabet _ (hlt _))
    · exact Or.inl (b32Char_mem_alphabet _ (hlt _))
    · exact Or.inr rfl
  | case5 b0 b1 b2 b3 =>
    intro c hc
    simp only [b32encode, b32Group, b32GroupN, List.take_succ_cons,
      List.take_zero, List.mem_append, List.mem_replicate, List.mem_cons,
      List.not_mem_nil, or_false] at hc
    rcases hc with (rfl | rfl | rfl | rfl | rfl | rfl | rfl) | rfl
    · exact Or.inl (b32Char_mem_alphabet _ (hlt _))
    · exact Or.inl (b32Char_mem_alphabet _ (hlt _))
    · exact Or.inl (b32Char_mem_alphabet _ (hlt _))
    · exact Or.inl (b32Char_mem_alphabet _ (hlt _))
    · exact Or.inl (b32Char_mem_alphabet _ (hlt _))
    · exact Or.inl (b32Char_mem_alphabet _ (hlt _))
    · exact Or.inl (b32Char_mem_alphabet _ (hlt _))
    · exact Or.inr rfl
  | case6 b0 b1 b2 b3 b4 rest ih =>
    intro c hc
    simp only [b32encode, b32Group, b32GroupN, List.cons_append,
      List.mem_cons] at hc
    rcases hc with rfl | rfl | rfl | rfl | rfl | rfl | rfl | rfl | h
    · exact Or.inl (b32Char_mem_alphabet _ (hlt _))
    · exact Or.inl (b32Char_mem_alphabet _ (hlt _))
    · exact Or.inl (b32Char_mem_alphabet _ (hlt _))
    · exact Or.inl (b32Char_mem_alphabet _ (hlt _))
    · exact Or.inl (b32Char_mem_alphabet _ (hlt _))
    · exact Or.inl (b32Char_mem_alphabet _ (hlt _))
    · exact Or.inl (b32Char_mem_alphabet _ (hlt _))
    · exact Or.inl (b32Char_mem_alphabet _ (hlt _))
    · exact ih c h

theorem mem_rstripEq (c : Char) (cs : List Char) (h : c ∈ rstripEq cs) : c ∈ cs := by
  rw [rstripEq, List.mem_reverse] at h
  exact List.mem_reverse.mp ((List.dropWhile_sublist _).subset h)

theorem rstrip_b32_no_amp (bs : List Nat) : '&' ∉ rstripEq (b32encode bs) := by
  intro h
  rcases b32encode_mem bs '&' (mem_rstripEq _ _ h) with h2 | h2 <;> revert h2 <;> decide

theorem rstrip_b32_no_qm (bs : List Nat) : '?' ∉ rstripEq (b32encode bs) := by
  intro h
  rcases b32encode_mem bs '?' (mem_rstripEq _ _ h) with h2 | h2 <;> revert h2 <;> decide

theorem isDigit_ne_amp (c : Char) (h : c.isDigit = true) : ¬ c = '&' := by
  rintro rfl
  exact absurd h (by decide)

theorem isDigit_ne_qm (c : Char) (h : c.isDigit = true) : ¬ c = '?' := by
  rintro rfl
  exact absurd h (by decide)

theorem intToString_chars (i : Int) :
    ∀ c ∈ (intToString i).data, c = '-' ∨ c.isDigit = true := by
  rw [intToString]
  split
  · intro c hc
    simp only [List.mem_cons] at hc
    rcases hc with rfl | hc
    · exact Or.inl rfl
    · exact Or.inr (natToDigitsAux_isDigit _ _ c hc)
  · intro c hc
    exact Or.inr (natToString_isDigit _ c hc)

/-! ## Parsing the produced URI -/

theorem splitFirst_append (d : Char) (xs ys : List Char) (h : d ∉ xs) :
    splitFirst d (xs ++ d :: ys) = some (xs, ys) := by
  induction xs with
  | nil => simp [splitFirst]
  | cons c cs ih =>
    have hne : ¬ c = d := fun hc => h (hc ▸ List.mem_cons_self c cs)
    have hnm : d ∉ cs := fun hm => h (List.mem_cons_of_mem c hm)
    simp [splitFirst, hne, ih hnm]

theorem splitAllAux_of_not_mem (d : Char) (cs acc : List Char) (h : d ∉ cs) :
    splitAllAux d cs acc = [acc.reverse ++ cs] := by
  induction cs generalizing acc with
  | nil => simp [splitAllAux]
  | cons c cs ih =>
    have hne : ¬ c = d := fun hc => h (hc ▸ List.mem_cons_self c cs)
    have hnm : d ∉ cs := fun hm => h (List.mem_cons_of_mem c hm)
    rw [splitAllAux, if_neg hne, ih _ hnm]
    simp

theorem splitAllAux_append (d : Char) (xs ys acc : List Char) (h : d ∉ xs) :
    splitAllAux d (xs ++ d :: ys) acc =
      (acc.reverse ++ xs) :: splitAllAux d ys [] := by
  induction xs generalizing acc with
  | nil => simp [splitAllAux]
  | cons c cs ih =>
    have hne : ¬ c = d := fun hc => h (hc ▸ List.mem_cons_self c cs)
    have hnm : d ∉ cs := fun hm => h (List.mem_cons_of_mem c hm)
    rw [List.cons_append, splitAllAux, if_neg hne, ih _ hnm]
    simp

theorem startsWithChars_self_append (k rest : List Char) :
    startsWithChars k (k ++ rest) = true := by
  induction k with
  | nil => simp [startsWithChars]
  | cons c cs ih => simp [startsWithChars, ih]

theorem startsWithChars_ne_head (a b : Char) (ks cs : List Char) (h : ¬ a = b) :
    startsWithChars (a :: ks) (b :: cs) = false := by
  simp [startsWithChars, h]

theorem lookupParam_head (key v : List Char) (ps : List (List Char)) :
    lookupParam key ((key ++ '=' :: v) :: ps) = some v := by
  rw [lookupParam]
  rw [show key ++ '=' :: v = (key ++ ['=']) ++ v by simp]
  rw [if_pos (startsWithChars_self_append _ _)]
  rw [List.drop_left' (by simp : (key ++ ['=']).length = key.length + 1)]

theorem lookupParam_cons_ne (key p : List Char) (ps : List (List Char))
    (h : startsWithChars (key ++ ['=']) p = false) :
    lookupParam key (p :: ps) = lookupParam key ps := by
  rw [lookupParam, if_neg (by simp [h])]


theorem url_data (secret : List Nat) (issuer user algorithm : String)
    (digits : Nat) (period : Int) :
    (generate_totp_url secret issuer user algorithm digits period).data =
      ("otpauth://totp/".data ++ issuer.data ++ ':' :: user.data) ++ '?' ::
        (("secret".data ++ '=' :: rstripEq (b32encode secret)) ++ '&' ::
          (("issuer".data ++ '=' :: issuer.data) ++ '&' ::
            (("algorithm".data ++ '=' :: algorithm.data) ++ '&' ::
              (("digits".data ++ '=' :: (natToString digits).data) ++ '&' ::
                ("period".data ++ '=' :: (intToString period).data))))) := by
  simp only [generate_totp_url, String.data_append]
  simp [List.append_assoc]

theorem url_query (secret : List Nat) (issuer user algorithm : String)
    (digits : Nat) (period : Int)
    (hiq : '?' ∉ issuer.data) (huq : '?' ∉ user.data) :
    queryOf (generate_totp_url secret issuer user algorithm digits period) =
      some (("secret".data ++ '=' :: rstripEq (b32encode secret)) ++ '&' ::
        (("issuer".data ++ '=' :: issuer.data) ++ '&' ::
          (("algorithm".data ++ '=' :: algorithm.data) ++ '&' ::
            (("digits".data ++ '=' :: (natToString digits).data) ++ '&' ::
              ("period".data ++ '=' :: (intToString period).data))))) := by
  have hP : '?' ∉ "otpauth://totp/".data ++ issuer.data ++ ':' :: user.data := by
    intro hm
    simp only [List.mem_append, List.mem_cons] at hm
    rcases hm with (hm | hm) | hm | hm
    · exact absurd hm (by decide)
    · exact hiq hm
    · exact absurd hm (by decide)
    · exact huq hm
  rw [queryOf, url_data, splitFirst_append _ _ _ hP]
  rfl

theorem url_params_list (secret : List Nat) (issuer algorithm : String)
    (digits : Nat) (period : Int)
    (hia : '&' ∉ issuer.data) (haa : '&' ∉ algorithm.data) :
    splitAll '&'
      (("secret".data ++ '=' :: rstripEq (b32encode secret)) ++ '&' ::
        (("issuer".data ++ '=' :: issuer.data) ++ '&' ::
          (("algorithm".data ++ '=' :: algorithm.data) ++ '&' ::
            (("digits".data ++ '=' :: (natToString digits).data) ++ '&' ::
              ("period".data ++ '=' :: (intToString period).data))))) =
      [("secret".data ++ '=' :: rstripEq (b32encode secret)),
       ("issuer".data ++ '=' :: issuer.data),
       ("algorithm".data ++ '=' :: algorithm.data),
       ("digits".data ++ '=' :: (natToString digits).data),
       ("period".data ++ '=' :: (intToString period).data)] := by
  have h1 : '&' ∉ "secret".data ++ '=' :: rstripEq (b32encode secret) := by
    intro hm
    simp only [List.mem_append, List.mem_cons] at hm
    rcases hm with hm | hm | hm
    · exact absurd hm (by decide)
    · exact absurd hm (by decide)
    · exact rstrip_b32_no_amp secret hm
  have h2 : '&' ∉ "issuer".data ++ '=' :: issuer.data := by
    intro hm
    simp only [List.mem_append, List.mem_cons] at hm
    rcases hm with hm | hm | hm
    · exact absurd hm (by decide)
    · exact absurd hm (by decide)
    · exact hia hm
  have h3 : '&' ∉ "algorithm".data ++ '=' :: algorithm.data := by
    intro hm
    simp only [List.mem_append, List.mem_cons] at hm
    rcases hm with hm | hm | hm
    · exact absurd hm (by decide)
    · exact absurd hm (by decide)
    · exact haa hm
  have h4 : '&' ∉ "digits".data ++ '=' :: (natToString digits).data := by
    intro hm
    simp only [List.mem_append, List.mem_cons] at hm
    rcases hm with hm | hm | hm
    · exact absurd hm (by decide)
    · exact absurd hm (by decide)
    · exact isDigit_ne_amp _ (natToString_isDigit _ _ hm) rfl
  have h5 : '&' ∉ "period".data ++ '=' :: (intToString period).data := by
    intro hm
    simp only [List.mem_append, List.mem_cons] at hm
    rcases hm with hm | hm | hm
    · exact absurd hm (by decide)
    · exact absurd hm (by decide)
    · rcases intToString_chars period _ hm with h | h
      · exact absurd h (by decide)
      · exact isDigit_ne_amp _ h rfl
  rw [splitAll, splitAllAux_append _ _ _ _ h1, splitAllAux_append _ _ _ _ h2,
    splitAllAux_append _ _ _ _ h3, splitAllAux_append _ _ _ _ h4,
    splitAllAux_of_not_mem _ _ _ h5]
  simp


set_option maxHeartbeats 1000000 in
theorem url_params (secret : List Nat) (issuer user algorithm : String)
    (digits : Nat) (period : Int)
    (hiq : '?' ∉ issuer.data) (hia : '&' ∉ issuer.data)
    (huq : '?' ∉ user.data) (haa : '&' ∉ algorithm.data) :
    paramOf (generate_totp_url secret issuer user algorithm digits period)
        "secret" = some (rstripEq (b32encode secret)) ∧
      paramOf (generate_totp_url secret issuer user algorithm digits period)
        "issuer" = some issuer.data ∧
      paramOf (generate_totp_url secret issuer user algorithm digits period)
        "algorithm" = some algorithm.data ∧
      paramOf (generate_totp_url secret issuer user algorithm digits period)
        "digits" = some (natToString digits).data ∧
      paramOf (generate_totp_url secret issuer user algorithm digits period)
        "period" = some (intToString period).data := by
  have hq := url_query secret issuer user algorithm digits period hiq huq
  have hl := url_params_list secret issuer algorithm digits period hia haa
  have m_i1 : startsWithChars ("issuer".data ++ ['='])
      ("secret".data ++ '=' :: rstripEq (b32encode secret)) = false := by
    rw [show ("issuer".data ++ ['=']) = 'i' :: ("ssuer".data ++ ['=']) from rfl,
      show "secret".data ++ '=' :: rstripEq (b32encode secret) =
        's' :: ("ecret".data ++ '=' :: rstripEq (b32encode secret)) from rfl]
    exact startsWithChars_ne_head _ _ _ _ (by decide)
  have m_a1 : startsWithChars ("algorithm".data ++ ['='])
      ("secret".data ++ '=' :: rstripEq (b32encode secret)) = false := by
    rw [show ("algorithm".data ++ ['=']) = 'a' :: ("lgorithm".data ++ ['=']) from rfl,
      show "secret".data ++ '=' :: rstripEq (b32encode secret) =
        's' :: ("ecret".data ++ '=' :: rstripEq (b32encode secret)) from rfl]
    exact startsWithChars_ne_head _ _ _ _ (by decide)
  have m_a2 : startsWithChars ("algorithm".data ++ ['='])
      ("issuer".data ++ '=' :: issuer.data) = false := by
    rw [show ("algorithm".data ++ ['=']) = 'a' :: ("lgorithm".data ++ ['=']) from rfl,
      show "issuer".data ++ '=' :: issuer.data =
        'i' :: ("ssuer".data ++ '=' :: issuer.data) from rfl]
    exact startsWithChars_ne_head _ _ _ _ (by decide)
  have m_d1 : startsWithChars ("digits".data ++ ['='])
      ("secret".data ++ '=' :: rstripEq (b32encode secret)) = false := by
    rw [show ("digits".data ++ ['=']) = 'd' :: ("igits".data ++ ['=']) from rfl,
      show "secret".data ++ '=' :: rstripEq (b32encode secret) =
        's' :: ("ecret".data ++ '=' :: rstripEq (b32encode secret)) from rfl]
    exact startsWithChars_ne_head _ _ _ _ (by decide)
  have m_d2 : startsWithChars ("digits".data ++ ['='])
      ("issuer".data ++ '=' :: issuer.data) = false := by
    rw [show ("digits".data ++ ['=']) = 'd' :: ("igits".data ++ ['=']) from rfl,
      show "issuer".data ++ '=' :: issuer.data =
        'i' :: ("ssuer".data ++ '=' :: issuer.data) from rfl]
    exact startsWithChars_ne_head _ _ _ _ (by decide)
  have m_d3 : startsWithChars ("digits".data ++ ['='])
      ("algorithm".data ++ '=' :: algorithm.data) = false := by
    rw [show ("digits".data ++ ['=']) = 'd' :: ("igits".data ++ ['=']) from rfl,
      show "algorithm".data ++ '=' :: algorithm.data =
        'a' :: ("lgorithm".data ++ '=' :: algorithm.data) from rfl]
    exact startsWithChars_ne_head _ _ _ _ (by decide)
  have m_p1 : startsWithChars ("period".data ++ ['='])
      ("secret".data ++ '=' :: rstripEq (b32encode secret)) = false := by
    rw [show ("period".data ++ ['=']) = 'p' :: ("eriod".data ++ ['=']) from rfl,
      show "secret".data ++ '=' :: rstripEq (b32encode secret) =
        's' :: ("ecret".data ++ '=' :: rstripEq (b32encode secret)) from rfl]
    exact startsWithChars_ne_head _ _ _ _ (by decide)
  have m_p2 : startsWithChars ("period".data ++ ['='])
      ("issuer".data ++ '=' :: issuer.data) = false := by
    rw [show ("period".data ++ ['=']) = 'p' :: ("eriod".data ++ ['=']) from rfl,
      show "issuer".data ++ '=' :: issuer.data =
        'i' :: ("ssuer".data ++ '=' :: issuer.data) from rfl]
    exact startsWithChars_ne_head _ _ _ _ (by decide)
  have m_p3 : startsWithChars ("period".data ++ ['='])
      ("algorithm".data ++ '=' :: algorithm.data) = false := by
    rw [show ("period".data ++ ['=']) = 'p' :: ("eriod".data ++ ['=']) from rfl,
      show "algorithm".data ++ '=' :: algorithm.data =
        'a' :: ("lgorithm".data ++ '=' :: algorithm.data) from rfl]
    exact startsWithChars_ne_head _ _ _ _ (by decide)
  have m_p4 : startsWithChars ("period".data ++ ['='])
      ("digits".data ++ '=' :: (natToString digits).data) = false := by
    rw [show ("period".data ++ ['=']) = 'p' :: ("eriod".data ++ ['=']) from rfl,
      show "digits".data ++ '=' :: (natToString digits).data =
        'd' :: ("igits".data ++ '=' :: (natToString digits).data) from rfl]
    exact startsWithChars_ne_head _ _ _ _ (by decide)
  refine ⟨?_, ?_, ?_, ?_, ?_⟩ <;> rw [paramOf, hq, Option.some_bind, hl]
  · exact lookupParam_head _ _ _
  · rw [lookupParam_cons_ne _ _ _ m_i1]
    exact lookupParam_head _ _ _
  · rw [lookupParam_cons_ne _ _ _ m_a1, lookupParam_cons_ne _ _ _ m_a2]
    exact lookupParam_head _ _ _
  · rw [lookupParam_cons_ne _ _ _ m_d1, lookupParam_cons_ne _ _ _ m_d2,
      lookupParam_cons_ne _ _ _ m_d3]
    exact lookupParam_head _ _ _
  · rw [lookupParam_cons_ne _ _ _ m_p1, lookupParam_cons_ne _ _ _ m_p2,
      lookupParam_cons_ne _ _ _ m_p3, lookupParam_cons_ne _ _ _ m_p4]
    exact lookupParam_head _ _ _


/-! ## The claims -/

/-- C1: for every secret, counter, digits and supported algorithm, the code
generation computes the HMAC digest of the 8-byte counter, takes the low
nibble of the last digest byte as offset, combines the 4 bytes at that
offset (first byte masked to 7 bits) big-endian into a non-negative 31-bit
integer, and returns that value mod `10 ^ digits`, zero-padded to `digits`
characters. -/
theorem claim_C1 (secret : List Nat) (digits : Nat) (period : Int)
    (algorithm : String) (now : ℚ) (halg : supportedAlg algorithm = true)
    (hp : 0 < period) (ht : 0 ≤ now)
    (hlt : ⌊now / (period : ℚ)⌋ < 18446744073709551616) :
    ∃ d : List Nat,
      hmacDigest algorithm secret
          (toBytesBE 8 (⌊now / (period : ℚ)⌋).toNat) = Except.ok d ∧
        specTruncate d < 2 ^ 31 ∧
        generate_totp secret digits period algorithm now =
          Except.ok (rjust digits (natToString (specTruncate d % 10 ^ digits))) := by
  have hbytes := hmacRaw_lt_256 algorithm secret
    (toBytesBE 8 (⌊now / (period : ℚ)⌋).toNat) halg
  refine ⟨hmacRaw algorithm secret (toBytesBE 8 (⌊now / (period : ℚ)⌋).toNat),
    hmacDigest_of_supported _ _ _ halg, specTruncate_lt _ hbytes, ?_⟩
  rw [generate_totp_ok secret digits period algorithm now halg hp ht hlt,
    truncBinary_eq_spec _ hbytes]

/-- Witness for C1 at secret `[1, 2, 3]`, 6 digits, period 30, SHA-1,
clock 59. -/
theorem claim_C1_witness :
    supportedAlg "SHA1" = true ∧ (0 : Int) < 30 ∧ (0 : ℚ) ≤ 59 ∧
      ⌊(59 : ℚ) / ((30 : Int) : ℚ)⌋ < 18446744073709551616 ∧
      (∃ d : List Nat,
        hmacDigest "SHA1" [1, 2, 3]
            (toBytesBE 8 (⌊(59 : ℚ) / ((30 : Int) : ℚ)⌋).toNat) = Except.ok d ∧
          specTruncate d < 2 ^ 31 ∧
          generate_totp [1, 2, 3] 6 30 "SHA1" 59 =
            Except.ok (rjust 6 (natToString (specTruncate d % 10 ^ 6)))) :=
  ⟨by decide, by decide, by norm_num,
    by rw [← divInt_counter_eq]; decide,
    claim_C1 [1, 2, 3] 6 30 "SHA1" 59 (by decide) (by decide) (by norm_num)
      (by rw [← divInt_counter_eq]; decide)⟩

set_option maxHeartbeats 4000000 in
/-- C2: with the RFC 6238 test secret `"12345678901234567890"` (ASCII),
SHA-1, 8 digits, period 30, at Unix time 59 (counter 1), the code is
exactly `"94287082"`. -/
theorem claim_C2 :
    generate_totp (asciiBytes "12345678901234567890") 8 30 "SHA1" 59 =
      Except.ok "94287082" := by
  decide

/-- C4: two runs whose timestamps fall in the same period window (equal
`floor(t / period)`) return identical results; in particular two calls at
the same instant agree. -/
theorem claim_C4 (secret : List Nat) (digits : Nat) (period : Int)
    (algorithm : String) (t1 t2 : ℚ)
    (h : ⌊t1 / (period : ℚ)⌋ = ⌊t2 / (period : ℚ)⌋) :
    generate_totp secret digits period algorithm t1 =
      generate_totp secret digits period algorithm t2 := by
  simp only [generate_totp, divInt_counter_eq, h]

/-- Witness for C4 at timestamps 30 and 59 with period 30 (both in window 1). -/
theorem claim_C4_witness :
    ⌊(30 : ℚ) / ((30 : Int) : ℚ)⌋ = ⌊(59 : ℚ) / ((30 : Int) : ℚ)⌋ ∧
      generate_totp [5] 6 30 "SHA1" 30 = generate_totp [5] 6 30 "SHA1" 59 :=
  ⟨by rw [← divInt_counter_eq, ← divInt_counter_eq]; decide,
    claim_C4 [5] 6 30 "SHA1" 30 59
      (by rw [← divInt_counter_eq, ← divInt_counter_eq]; decide)⟩


set_option maxHeartbeats 4000000 in
/-- C3 as stated is false twice over: at period 0 the code raises
`ZeroDivisionError`, not the spec's `InvalidParameter` (which no code path
produces); and the algorithm name `"sha1"`, outside `{SHA1, SHA256,
SHA512}` but resolved by hashlib, does not fail at all — the call returns
the code `"812658"`. -/
theorem claim_C3_counterexample :
    generate_totp [] 6 0 "SHA1" 59 = Except.error PyError.zeroDivisionError ∧
      generate_totp [] 6 0 "SHA1" 59 ≠ Except.error PyError.invalidParameter ∧
      generate_totp [] 6 30 "sha1" 59 = Except.ok "812658" := by
  refine ⟨by decide, by decide, ?_⟩
  decide

/-- C3 (amended): at any strictly positive clock value, a non-positive
period makes `generate_totp` fail before any HMAC is computed — with
`ZeroDivisionError` for period 0 or `OverflowError` for a negative period,
the code defining no `InvalidParameter` — rather than return a code
string.  (The algorithm half of the original claim is dropped: hashlib
resolves names outside the spec's three, such as `"sha1"`, and the call
then returns a code, as the counterexample shows.) -/
theorem claim_C3 (secret : List Nat) (digits : Nat) (period : Int)
    (algorithm : String) (now : ℚ) (ht : 0 < now) (hp : period ≤ 0) :
    generate_totp secret digits period algorithm now =
        Except.error PyError.zeroDivisionError ∨
      generate_totp secret digits period algorithm now =
        Except.error PyError.overflowError :=
  generate_totp_period_err secret digits period algorithm now ht hp

/-- Witness for C3 at period 0, SHA-1, clock 59. -/
theorem claim_C3_witness :
    (0 : ℚ) < 59 ∧ (0 : Int) ≤ 0 ∧
      (generate_totp [] 6 0 "SHA1" 59 = Except.error PyError.zeroDivisionError ∨
        generate_totp [] 6 0 "SHA1" 59 = Except.error PyError.overflowError) :=
  ⟨by norm_num, by decide, claim_C3 [] 6 0 "SHA1" 59 (by norm_num) (by decide)⟩

/-- C5: for 6–10 digits, any secret, positive period, supported algorithm
and representable timestamp, the returned code has exactly `digits`
characters, all decimal digits; when `digits = 6` and the truncated value
is divisible by `10 ^ 6` the code is `"000000"`. -/
theorem claim_C5 (secret : List Nat) (digits : Nat) (period : Int)
    (algorithm : String) (now : ℚ) (halg : supportedAlg algorithm = true)
    (hp : 0 < period) (ht : 0 ≤ now)
    (hlt : ⌊now / (period : ℚ)⌋ < 18446744073709551616)
    (hd6 : 6 ≤ digits) (hd10 : digits ≤ 10) :
    ∃ code : String,
      generate_totp secret digits period algorithm now = Except.ok code ∧
        code.length = digits ∧ (∀ c ∈ code.data, c.isDigit = true) ∧
        (digits = 6 →
          truncBinary (hmacRaw algorithm secret
            (toBytesBE 8 (⌊now / (period : ℚ)⌋).toNat)) % 10 ^ 6 = 0 →
          code = "000000") := by
  have hmod : truncBinary (hmacRaw algorithm secret
      (toBytesBE 8 (⌊now / (period : ℚ)⌋).toNat)) % 10 ^ digits < 10 ^ digits :=
    Nat.mod_lt _ (Nat.pos_pow_of_pos digits (by norm_num))
  refine ⟨_, generate_totp_ok secret digits period algorithm now halg hp ht hlt,
    ?_, ?_, ?_⟩
  · exact rjust_length digits _ (natToString_length_le _ _ (by omega) hmod)
  · exact rjust_isDigit digits _ (natToString_isDigit _)
  · intro h6 hz
    subst h6
    rw [hz]
    decide

/-- Witness for C5 at secret `[7]`, 6 digits, period 30, SHA-1, clock 0. -/
theorem claim_C5_witness :
    supportedAlg "SHA1" = true ∧ (0 : Int) < 30 ∧ (0 : ℚ) ≤ 0 ∧
      ⌊(0 : ℚ) / ((30 : Int) : ℚ)⌋ < 18446744073709551616 ∧ 6 ≤ 6 ∧ 6 ≤ 10 ∧
      (∃ code : String,
        generate_totp [7] 6 30 "SHA1" 0 = Except.ok code ∧
          code.length = 6 ∧ (∀ c ∈ code.data, c.isDigit = true) ∧
          (6 = 6 →
            truncBinary (hmacRaw "SHA1" [7]
              (toBytesBE 8 (⌊(0 : ℚ) / ((30 : Int) : ℚ)⌋).toNat)) % 10 ^ 6 = 0 →
            code = "000000")) :=
  ⟨by decide, by decide, by norm_num, by rw [← divInt_counter_eq]; decide,
    by decide, by decide,
    claim_C5 [7] 6 30 "SHA1" 0 (by decide) (by decide) (by norm_num)
      (by rw [← divInt_counter_eq]; decide) (by decide) (by decide)⟩

/-- C6: the counter fed to the HMAC is the 8-byte big-endian unsigned
encoding of `floor(now / period)` under mathematical floor-division
semantics: 8 bytes, each below 256, whose big-endian value is the floor. -/
theorem claim_C6 (secret : List Nat) (digits : Nat) (period : Int)
    (algorithm : String) (now : ℚ) (halg : supportedAlg algorithm = true)
    (hp : 0 < period) (ht : 0 ≤ now)
    (hlt : ⌊now / (period : ℚ)⌋ < 18446744073709551616) :
    (toBytesBE 8 (⌊now / (period : ℚ)⌋).toNat).length = 8 ∧
      (∀ b ∈ toBytesBE 8 (⌊now / (period : ℚ)⌋).toNat, b < 256) ∧
      ((bytesToNatBE (toBytesBE 8 (⌊now / (period : ℚ)⌋).toNat) : Nat) : Int) =
        ⌊now / (period : ℚ)⌋ ∧
      generate_totp secret digits period algorithm now =
        Except.ok (rjust digits (natToString
          (truncBinary (hmacRaw algorithm secret
            (toBytesBE 8 (⌊now / (period : ℚ)⌋).toNat)) % 10 ^ digits))) := by
  have hfl : 0 ≤ ⌊now / (period : ℚ)⌋ := by
    apply Int.floor_nonneg.mpr
    apply div_nonneg ht
    exact_mod_cast hp.le
  have hsmall : (⌊now / (period : ℚ)⌋).toNat < 256 ^ 8 := by
    have h2 : (256 : Nat) ^ 8 = 18446744073709551616 := by norm_num
    omega
  refine ⟨toBytesBE_length _ _, toBytesBE_lt_256 _ _, ?_,
    generate_totp_ok secret digits period algorithm now halg hp ht hlt⟩
  rw [bytesToNatBE_toBytesBE _ _ hsmall]
  exact Int.toNat_of_nonneg hfl

/-- Witness for C6 at secret `[9]`, 6 digits, period 30, SHA-1, clock 59. -/
theorem claim_C6_witness :
    supportedAlg "SHA1" = true ∧ (0 : Int) < 30 ∧ (0 : ℚ) ≤ 59 ∧
      ⌊(59 : ℚ) / ((30 : Int) : ℚ)⌋ < 18446744073709551616 ∧
      ((toBytesBE 8 (⌊(59 : ℚ) / ((30 : Int) : ℚ)⌋).toNat).length = 8 ∧
        (∀ b ∈ toBytesBE 8 (⌊(59 : ℚ) / ((30 : Int) : ℚ)⌋).toNat, b < 256) ∧
        ((bytesToNatBE (toBytesBE 8 (⌊(59 : ℚ) / ((30 : Int) : ℚ)⌋).toNat) : Nat) : Int) =
          ⌊(59 : ℚ) / ((30 : Int) : ℚ)⌋ ∧
        generate_totp [9] 6 30 "SHA1" 59 =
          Except.ok (rjust 6 (natToString
            (truncBinary (hmacRaw "SHA1" [9]
              (toBytesBE 8 (⌊(59 : ℚ) / ((30 : Int) : ℚ)⌋).toNat)) % 10 ^ 6)))) :=
  ⟨by decide, by decide, by norm_num, by rw [← divInt_counter_eq]; decide,
    claim_C6 [9] 6 30 "SHA1" 59 (by decide) (by decide) (by norm_num)
      (by rw [← divInt_counter_eq]; decide)⟩


/-- C7 as stated is false: with issuer `"A&B"` the produced URI's `issuer`
query field parses back as `"A"`, not the input. -/
theorem claim_C7_counterexample :
    paramOf (generate_totp_url [] "A&B" "u" "SHA1" 6 30) "issuer" =
        some ['A'] ∧
      paramOf (generate_totp_url [] "A&B" "u" "SHA1" 6 30) "issuer" ≠
        some "A&B".data := by
  decide

/-- C7 (amended): when issuer and user contain no `'?'`, the issuer no
`'&'`, and the algorithm string no `'&'`, the produced URI parses back
exactly: the `secret` field is the padding-stripped RFC 4648 base32
encoding of the secret, decoding it (after restoring padding) returns the
original secret bytes, and the issuer, algorithm, digits and period fields
equal the inputs. -/
theorem claim_C7 (secret : List Nat) (issuer user algorithm : String)
    (digits : Nat) (period : Int) (hsec : ∀ b ∈ secret, b < 256)
    (hiq : '?' ∉ issuer.data) (hia : '&' ∉ issuer.data)
    (huq : '?' ∉ user.data) (haa : '&' ∉ algorithm.data) :
    paramOf (generate_totp_url secret issuer user algorithm digits period)
        "secret" = some (rstripEq (b32encode secret)) ∧
      b32decode (restorePad (rstripEq (b32encode secret))) = some secret ∧
      paramOf (generate_totp_url secret issuer user algorithm digits period)
        "issuer" = some issuer.data ∧
      paramOf (generate_totp_url secret issuer user algorithm digits period)
        "algorithm" = some algorithm.data ∧
      paramOf (generate_totp_url secret issuer user algorithm digits period)
        "digits" = some (natToString digits).data ∧
      paramOf (generate_totp_url secret issuer user algorithm digits period)
        "period" = some (intToString period).data := by
  obtain ⟨h1, h2, h3, h4, h5⟩ :=
    url_params secret issuer user algorithm digits period hiq hia huq haa
  refine ⟨h1, ?_, h2, h3, h4, h5⟩
  rw [rstrip_restore]
  exact b32decode_b32encode secret hsec

/-- Witness for C7 at secret `[1, 2]`, issuer `"Ex"`, user `"u"`, SHA-1,
6 digits, period 30. -/
theorem claim_C7_witness :
    (∀ b ∈ ([1, 2] : List Nat), b < 256) ∧ '?' ∉ "Ex".data ∧
      '&' ∉ "Ex".data ∧ '?' ∉ "u".data ∧ '&' ∉ "SHA1".data ∧
      (paramOf (generate_totp_url [1, 2] "Ex" "u" "SHA1" 6 30) "secret" =
          some (rstripEq (b32encode [1, 2])) ∧
        b32decode (restorePad (rstripEq (b32encode [1, 2]))) = some [1, 2] ∧
        paramOf (generate_totp_url [1, 2] "Ex" "u" "SHA1" 6 30) "issuer" =
          some "Ex".data ∧
        paramOf (generate_totp_url [1, 2] "Ex" "u" "SHA1" 6 30) "algorithm" =
          some "SHA1".data ∧
        paramOf (generate_totp_url [1, 2] "Ex" "u" "SHA1" 6 30) "digits" =
          some (natToString 6).data ∧
        paramOf (generate_totp_url [1, 2] "Ex" "u" "SHA1" 6 30) "period" =
          some (intToString 30).data) :=
  ⟨by decide, by decide, by decide, by decide, by decide,
    claim_C7 [1, 2] "Ex" "u" "SHA1" 6 30 (by decide) (by decide) (by decide)
      (by decide) (by decide)⟩

/-- C8: the claim is right and the code is wrong — issuer and user are
interpolated without percent-encoding, so the repository's own example
inputs put raw spaces into the URI. -/
theorem claim_C8 :
    ' ' ∈ (generate_totp_url (asciiBytes "SuperDuper!#123!#1231")
      "BasselTech Test" "Bassel Admin" "SHA1" 6 30).data := by
  decide

/-- C9: for every supported algorithm the digest is at least 20 bytes, the
truncation offset (low nibble of the last byte) is at most 15, and
`offset + 4` never exceeds the digest length. -/
theorem claim_C9 (algorithm : String) (key msg : List Nat)
    (halg : supportedAlg algorithm = true) :
    ∃ d : List Nat,
      hmacDigest algorithm key msg = Except.ok d ∧ 20 ≤ d.length ∧
        d.getD (d.length - 1) 0 &&& 15 ≤ 15 ∧
        (d.getD (d.length - 1) 0 &&& 15) + 4 ≤ d.length := by
  refine ⟨hmacRaw algorithm key msg, hmacDigest_of_supported _ _ _ halg, ?_, ?_, ?_⟩
  · rw [hmacRaw_length _ _ _ halg]
    exact digestSizeOf_ge_20 algorithm
  · rw [and_15_eq_mod]
    omega
  · rw [and_15_eq_mod, hmacRaw_length _ _ _ halg]
    have h20 := digestSizeOf_ge_20 algorithm
    have hm : (hmacRaw algorithm key msg).getD
        ((hmacRaw algorithm key msg).length - 1) 0 % 16 < 16 :=
      Nat.mod_lt _ (by norm_num)
    omega

/-- Witness for C9 with SHA-1, empty key and message. -/
theorem claim_C9_witness :
    supportedAlg "SHA1" = true ∧
      (∃ d : List Nat,
        hmacDigest "SHA1" [] [] = Except.ok d ∧ 20 ≤ d.length ∧
          d.getD (d.length - 1) 0 &&& 15 ≤ 15 ∧
          (d.getD (d.length - 1) 0 &&& 15) + 4 ≤ d.length) :=
  ⟨by decide, claim_C9 "SHA1" [] [] (by decide)⟩

/-- C10: an empty secret is accepted by both entry points: the code path
still returns a `digits`-length decimal code (HMAC with an empty key), and
the URI's secret field is the empty string; neither raises an error. -/
theorem claim_C10 (digits : Nat) (period : Int) (algorithm : String)
    (now : ℚ) (issuer user : String) (halg : supportedAlg algorithm = true)
    (hp : 0 < period) (ht : 0 ≤ now)
    (hlt : ⌊now / (period : ℚ)⌋ < 18446744073709551616) (hd : 1 ≤ digits) :
    (∃ code : String,
      generate_totp [] digits period algorithm now = Except.ok code ∧
        code.length = digits ∧ ∀ c ∈ code.data, c.isDigit = true) ∧
      generate_totp_url [] issuer user algorithm digits period =
        "otpauth://totp/" ++ issuer ++ ":" ++ user ++ "?secret=&issuer=" ++
          issuer ++ "&algorithm=" ++ algorithm ++ "&digits=" ++
          natToString digits ++ "&period=" ++ intToString period := by
  constructor
  · have hmod : truncBinary (hmacRaw algorithm []
        (toBytesBE 8 (⌊now / (period : ℚ)⌋).toNat)) % 10 ^ digits < 10 ^ digits :=
      Nat.mod_lt _ (Nat.pos_pow_of_pos digits (by norm_num))
    refine ⟨_, generate_totp_ok [] digits period algorithm now halg hp ht hlt,
      ?_, ?_⟩
    · exact rjust_length digits _ (natToString_length_le _ _ hd hmod)
    · exact rjust_isDigit digits _ (natToString_isDigit _)
  · apply String.ext
    simp [generate_totp_url, String.data_append, b32encode, rstripEq,
      List.append_assoc]

/-- Witness for C10 with SHA-1, 6 digits, period 30, clock 59, issuer
`"Ex"`, user `"u"`. -/
theorem claim_C10_witness :
    supportedAlg "SHA1" = true ∧ (0 : Int) < 30 ∧ (0 : ℚ) ≤ 59 ∧
      ⌊(59 : ℚ) / ((30 : Int) : ℚ)⌋ < 18446744073709551616 ∧ 1 ≤ 6 ∧
      ((∃ code : String,
        generate_totp [] 6 30 "SHA1" 59 = Except.ok code ∧
          code.length = 6 ∧ ∀ c ∈ code.data, c.isDigit = true) ∧
        generate_totp_url [] "Ex" "u" "SHA1" 6 30 =
          "otpauth://totp/" ++ "Ex" ++ ":" ++ "u" ++ "?secret=&issuer=" ++
            "Ex" ++ "&algorithm=" ++ "SHA1" ++ "&digits=" ++
            natToString 6 ++ "&period=" ++ intToString 30) :=
  ⟨by decide, by decide, by norm_num, by rw [← divInt_counter_eq]; decide,
    by decide,
    claim_C10 6 30 "SHA1" 59 "Ex" "u" (by decide) (by decide) (by norm_num)
      (by rw [← divInt_counter_eq]; decide) (by decide)⟩

end Totp
